import Mathlib

/-
Shallow embedding of the carbonbridge auction / inventory consistency engine.

Source files embedded:
  src/models/python/models/operations/listings.py
  src/models/python/models/operations/auctions.py
  src/models/python/models/operations/orders.py   (the parts settlement calls)
  src/models/python/models/entities/couchbase/{listings,auctions,bids,orders}.py

Modelling conventions:
  - Python floats (EUR amounts, tonne quantities, timestamps) are embedded as
    exact rationals; timestamps are rationals counting seconds, `timedelta
    (minutes=m)` is `m * 60`.
  - Error strings are embedded as the inductive `Msg`, one constructor per
    distinct message produced by the embedded code (the formatted payloads of
    the f-strings become constructor arguments).
  - The document store visible to these operations is the `World` record: the
    one listing backing the auction, the one auction, and Nat-keyed `bids` and
    `orders` collections (Couchbase uuid keys become Nats drawn from a
    counter).  `created_at` / `updated_at` bookkeeping fields of the base
    model, and descriptive fields never read by the embedded operations
    (registry names, project metadata, payment-link urls, ...) are omitted.
  - The CAS loop of `_listing_cas_retry` / `_auction_cas_retry` (textually the
    same helper in both files) is embedded once, generically, as `casRetry`.
    Concurrent interference is made explicit: `reads i` is the document the
    re-read at attempt `i` returns, and `writeOk i` says whether the
    CAS-guarded write of attempt `i` succeeds or raises
    CASMismatchException.  Sequential (interference-free) execution is the
    instance `reads = fun _ => current document`, `writeOk = fun _ => true`.
-/

inductive ListingStatus where
  | draft | active | paused | sold_out
deriving DecidableEq, Repr

inductive AuctionStatus where
  | scheduled | active | ended | settled | failed | cancelled | bought_now
deriving DecidableEq, Repr

inductive BidStatus where
  | active | outbid | won | lost | buy_now
deriving DecidableEq, Repr

inductive OrderStatus where
  | pending | confirmed | completed | cancelled | refunded
deriving DecidableEq, Repr

/-- One constructor per distinct error string returned by the embedded
operations; f-string payloads become constructor arguments. -/
inductive Msg where
  /-- "Listing \x7bid\x7d not found" -/
  | listingNotFound
  /-- "Auction \x7bid\x7d not found" -/
  | auctionNotFound
  /-- "Insufficient availability: requested \x7bq\x7dt but only \x7ba\x7dt available" -/
  | insufficientAvailability (requested avail : ℚ)
  /-- "Concurrent update conflict — please retry" -/
  | concurrentUpdateConflict
  /-- "Max retries exceeded" (dead code after the loop) -/
  | maxRetriesExceeded
  /-- "Auction is not active (status: \x7bs\x7d)" -/
  | auctionNotActive (s : AuctionStatus)
  /-- "Auction has ended" -/
  | auctionEnded
  /-- "Sellers cannot bid on their own auction" -/
  | ownAuction
  /-- "Bid must be at least EUR \x7bm\x7d/t" -/
  | bidTooLow (minBid : ℚ)
  /-- "Auction is no longer active (status: \x7bs\x7d)" (inside the bid CAS mutator) -/
  | auctionNoLongerActive (s : AuctionStatus)
  /-- "Cannot activate: status is \x7bs\x7d" -/
  | cannotActivate (s : AuctionStatus)
  /-- "Cannot cancel auction with existing bids" -/
  | cannotCancelWithBids
  /-- "Cannot cancel auction with status: \x7bs\x7d" -/
  | cannotCancelStatus (s : AuctionStatus)
  /-- "Auction not in settleable state (status: \x7bs\x7d)" -/
  | notSettleable (s : AuctionStatus)
  /-- "Winning bid document not found" -/
  | winningBidNotFound
deriving DecidableEq, Repr

/-- `ListingData` (entities/couchbase/listings.py), restricted to the fields
the embedded operations read or write. -/
structure ListingData where
  seller_id : String
  quantity_tonnes : ℚ
  quantity_reserved : ℚ
  quantity_sold : ℚ
  price_per_tonne_eur : ℚ
  status : ListingStatus
deriving DecidableEq, Repr

/-- `AuctionConfig` (entities/couchbase/auctions.py). -/
structure AuctionConfig where
  starting_price_per_tonne_eur : ℚ
  reserve_price_per_tonne_eur : Option ℚ
  buy_now_price_per_tonne_eur : Option ℚ
  min_bid_increment_eur : ℚ
  auto_extend_minutes : ℤ
  auto_extend_duration_minutes : ℤ
deriving DecidableEq, Repr

/-- `AuctionData` (entities/couchbase/auctions.py); bid and order document
keys are Nats in this model. -/
structure AuctionData where
  seller_id : String
  listing_id : String
  config : AuctionConfig
  quantity_tonnes : ℚ
  starts_at : ℚ
  ends_at : ℚ
  effective_ends_at : ℚ
  extensions_count : ℕ
  status : AuctionStatus
  current_high_bid_eur : Option ℚ
  current_high_bid_id : Option ℕ
  current_high_bidder_id : Option String
  bid_count : ℕ
  winner_id : Option String
  winning_bid_id : Option ℕ
  winning_price_per_tonne_eur : Option ℚ
  order_id : Option ℕ
  settled_at : Option ℚ
deriving DecidableEq, Repr

/-- `BidData` (entities/couchbase/bids.py); `placed_by`/`agent_run_id`
provenance fields are never read by the embedded logic and are omitted. -/
structure BidData where
  auction_id : String
  bidder_id : String
  amount_per_tonne_eur : ℚ
  total_eur : ℚ
  placed_at : ℚ
  status : BidStatus
  is_buy_now : Bool
deriving DecidableEq, Repr

/-- `OrderLineItem` (entities/couchbase/orders.py). -/
structure OrderLineItem where
  listing_id : String
  quantity : ℚ
  price_per_tonne : ℚ
  subtotal : ℚ
deriving DecidableEq, Repr

/-- `OrderData` (entities/couchbase/orders.py), restricted to the fields the
settlement pipeline touches. -/
structure OrderData where
  buyer_id : String
  status : OrderStatus
  line_items : List OrderLineItem
  total_eur : ℚ
  stripe_payment_intent_id : Option String
  completed_at : Option ℚ
deriving DecidableEq, Repr

/-- The document-store state visible to the embedded operations: the listing
backing the auction, the auction itself, the bid and order collections
(assoc lists keyed by Nat ids drawn from the counters), and the event log of
orders for which `order_record_ledger_entries` was invoked. -/
structure World where
  listing : Option ListingData
  auction : Option AuctionData
  bids : List (ℕ × BidData)
  orders : List (ℕ × OrderData)
  ledger : List ℕ
  nextBid : ℕ
  nextOrder : ℕ
deriving DecidableEq, Repr

/-- Python `round(x, 2)` on EUR amounts.  (Python rounds half-to-even; this
rounds half away from even only at exact half-cent ties, which no embedded
claim exercises.) -/
def round2 (x : ℚ) : ℚ := (round (x * 100) : ℤ) / 100

/-- The loop body of `_listing_cas_retry` / `_auction_cas_retry` (the two are
textually the same helper).  `reads i` is what the re-read at attempt `i`
returns, `m` is the mutator (returning an abort message or the mutated
document), `wOk i` tells whether the CAS-guarded write of attempt `i`
succeeds.  Arguments after `nf`: attempt index, remaining loop iterations,
current backoff in ms, write attempts so far, sleeps performed so far. -/
def casRetryGo {α : Type} (reads : ℕ → Option α) (m : α → Option Msg × α)
    (wOk : ℕ → Bool) (nf : Msg) :
    ℕ → ℕ → ℕ → ℕ → List ℕ →
    Bool × Option Msg × Option α × ℕ × List ℕ
  | _, 0, _, writes, sleeps =>
      -- the `return False, "Max retries exceeded"` after the for loop
      (false, some Msg.maxRetriesExceeded, none, writes, sleeps)
  | attempt, n + 1, backoffMs, writes, sleeps =>
      match reads attempt with
      | none => (false, some nf, none, writes, sleeps)
      | some x =>
        match m x with
        | (some e, _) => (false, some e, none, writes, sleeps)
        | (none, x') =>
          if wOk attempt then
            (true, none, some x', writes + 1, sleeps)
          else if n = 0 then
            -- attempt == max_retries
            (false, some Msg.concurrentUpdateConflict, none, writes + 1, sleeps)
          else
            casRetryGo reads m wOk nf (attempt + 1) n (backoffMs * 2)
              (writes + 1) (sleeps ++ [backoffMs])

/-- Result of one `_listing_cas_retry` / `_auction_cas_retry` call:
`(ok, error, document written on success, number of write attempts,
backoff sleeps performed in ms)`. -/
def casRetry {α : Type} (reads : ℕ → Option α) (m : α → Option Msg × α)
    (wOk : ℕ → Bool) (nf : Msg) (maxRetries : ℕ) :
    Bool × Option Msg × Option α × ℕ × List ℕ :=
  casRetryGo reads m wOk nf 0 (maxRetries + 1) 10 0 []

/-- `_listing_cas_retry` against the world's listing, interference-free
(every re-read sees the stored document, every write succeeds). -/
def listingCasW (w : World) (m : ListingData → Option Msg × ListingData) :
    (Bool × Option Msg) × World :=
  let r := casRetry (fun _ => w.listing) m (fun _ => true) Msg.listingNotFound 5
  match r.2.2.1 with
  | some l => ((r.1, r.2.1), { w with listing := some l })
  | none => ((r.1, r.2.1), w)

/-- The `_mutate` closure of `listing_reserve_quantity`. -/
def reserveQuantityMut (quantity : ℚ) (data : ListingData) :
    Option Msg × ListingData :=
  let new_reserved0 := data.quantity_reserved + quantity
  let new_reserved := if quantity < 0 then max new_reserved0 0 else new_reserved0
  let available := data.quantity_tonnes - data.quantity_sold
  if new_reserved > available then
    (some (Msg.insufficientAvailability quantity (available - data.quantity_reserved)), data)
  else
    (none, { data with quantity_reserved := new_reserved })

/-- The `_mutate` closure of `listing_release_reservation`. -/
def releaseReservationMut (quantity : ℚ) (data : ListingData) :
    Option Msg × ListingData :=
  (none, { data with quantity_reserved := max (data.quantity_reserved - quantity) 0 })

/-- The `_mutate` closure of `listing_confirm_sale`. -/
def confirmSaleMut (quantity : ℚ) (data : ListingData) :
    Option Msg × ListingData :=
  let d1 := { data with
    quantity_reserved := max (data.quantity_reserved - quantity) 0,
    quantity_sold := data.quantity_sold + quantity }
  if d1.quantity_sold ≥ d1.quantity_tonnes then
    (none, { d1 with status := ListingStatus.sold_out })
  else
    (none, d1)

/-- `listing_reserve_quantity` (interference-free execution). -/
def listing_reserve_quantity (w : World) (quantity : ℚ) :
    (Bool × Option Msg) × World :=
  listingCasW w (reserveQuantityMut quantity)

/-- `listing_release_reservation` (interference-free execution). -/
def listing_release_reservation (w : World) (quantity : ℚ) :
    (Bool × Option Msg) × World :=
  listingCasW w (releaseReservationMut quantity)

/-- `listing_confirm_sale` (interference-free execution). -/
def listing_confirm_sale (w : World) (quantity : ℚ) :
    (Bool × Option Msg) × World :=
  listingCasW w (confirmSaleMut quantity)

/-- The listing inventory invariant from the spec:
`0 ≤ reserved ≤ total − sold` (equivalently `0 ≤ reserved` and
`reserved + sold ≤ total`). -/
def ListingInv (l : ListingData) : Prop :=
  0 ≤ l.quantity_reserved ∧
    l.quantity_reserved + l.quantity_sold ≤ l.quantity_tonnes

instance (l : ListingData) : Decidable (ListingInv l) := by
  unfold ListingInv; infer_instance

/-- The invariant holds of whatever listing the world stores. -/
def ListingInvW (w : World) : Prop :=
  ∀ l, w.listing = some l → ListingInv l

/-- `_auction_cas_retry` against the world's auction, interference-free. -/
def auctionCasW (w : World) (m : AuctionData → Option Msg × AuctionData) :
    (Bool × Option Msg) × World :=
  let r := casRetry (fun _ => w.auction) m (fun _ => true) Msg.auctionNotFound 5
  match r.2.2.1 with
  | some a => ((r.1, r.2.1), { w with auction := some a })
  | none => ((r.1, r.2.1), w)

/-- `Bid.get` on the world's bid collection. -/
def lookupBid (bs : List (ℕ × BidData)) (id : ℕ) : Option BidData :=
  (bs.find? (fun p => p.1 == id)).map (fun p => p.2)

/-- `Bid.update` on the world's bid collection. -/
def updateBid (bs : List (ℕ × BidData)) (id : ℕ) (b : BidData) :
    List (ℕ × BidData) :=
  bs.map (fun p => if p.1 = id then (p.1, b) else p)

/-- The document key of the single auction this world models. -/
def theAuctionId : String := "A"

/-- Lines 217–219 of auctions.py: the minimum acceptable bid amount. -/
def minAcceptableBid (data : AuctionData) : ℚ :=
  match data.current_high_bid_eur with
  | some h => h + data.config.min_bid_increment_eur
  | none => data.config.starting_price_per_tonne_eur

/-- Lines 225–228 of auctions.py: Python
`if data.config.buy_now_price_per_tonne_eur and amount >= ...` — note the
truthiness test, under which a configured price of `0.0` counts as unset. -/
def buyNowHit (data : AuctionData) (amount : ℚ) : Bool :=
  match data.config.buy_now_price_per_tonne_eur with
  | some p => decide (p ≠ 0) && decide (amount ≥ p)
  | none => false

/-- Line 230 of auctions.py: the bid amount after buy-now clamping. -/
def clampedAmount (data : AuctionData) (amount : ℚ) : ℚ :=
  if buyNowHit data amount then
    (data.config.buy_now_price_per_tonne_eur).getD amount
  else amount

/-- The `BidData(...)` document built at lines 235–245 of auctions.py. -/
def placeBidData (data : AuctionData) (bidder_id : String) (amount now : ℚ) :
    BidData :=
  let is_buy_now := buyNowHit data amount
  let amt := clampedAmount data amount
  { auction_id := theAuctionId
    bidder_id := bidder_id
    amount_per_tonne_eur := amt
    total_eur := round2 (amt * data.quantity_tonnes)
    placed_at := now
    status := if is_buy_now then BidStatus.buy_now else BidStatus.active
    is_buy_now := is_buy_now }

/-- Step 7 of `auction_place_bid` (lines 284–291): best-effort marking of the
previous high bid as outbid. -/
def markPrevOutbid (w : World) (previous_high_bid_id : Option ℕ)
    (is_buy_now : Bool) : World :=
  match previous_high_bid_id with
  | some pid =>
    if is_buy_now then w
    else
      match lookupBid w.bids pid with
      | some pb =>
        if pb.status = BidStatus.active then
          { w with bids := updateBid w.bids pid { pb with status := BidStatus.outbid } }
        else w
      | none => w
  | none => w

/-- The `_mutate` closure of `auction_place_bid` (lines 252–277). -/
def placeBidMut (amt : ℚ) (bidId : ℕ) (bidder_id : String) (now : ℚ)
    (is_buy_now : Bool) (d : AuctionData) : Option Msg × AuctionData :=
  if d.status ≠ AuctionStatus.active then
    (some (Msg.auctionNoLongerActive d.status), d)
  else
    let d1 := { d with
      current_high_bid_eur := some amt
      current_high_bid_id := some bidId
      current_high_bidder_id := some bidder_id
      bid_count := d.bid_count + 1 }
    let time_remaining := d1.effective_ends_at - now
    let d2 :=
      if time_remaining ≤ (d1.config.auto_extend_minutes : ℚ) * 60 then
        { d1 with
          effective_ends_at :=
            d1.effective_ends_at + (d1.config.auto_extend_duration_minutes : ℚ) * 60
          extensions_count := d1.extensions_count + 1 }
      else d1
    let d3 :=
      if is_buy_now then
        { d2 with
          status := AuctionStatus.bought_now
          winner_id := some bidder_id
          winning_bid_id := some bidId
          winning_price_per_tonne_eur := some amt }
      else d2
    (none, d3)

/-- `auction_place_bid`.  `intf i = some a` means a concurrent writer changed
the auction document so that the CAS-loop re-read at attempt `i` sees `a`;
`wOk i` says whether the CAS write of attempt `i` succeeds. -/
def auction_place_bid (w : World) (bidder_id : String)
    (amount_per_tonne_eur : ℚ) (now : ℚ)
    (intf : ℕ → Option AuctionData) (wOk : ℕ → Bool) :
    (Option (ℕ × BidData) × Option Msg) × World :=
  match w.auction with
  | none => ((none, some Msg.auctionNotFound), w)
  | some data =>
    if data.status ≠ AuctionStatus.active then
      ((none, some (Msg.auctionNotActive data.status)), w)
    else if now > data.effective_ends_at then
      ((none, some Msg.auctionEnded), w)
    else if data.seller_id = bidder_id then
      ((none, some Msg.ownAuction), w)
    else if amount_per_tonne_eur < minAcceptableBid data then
      ((none, some (Msg.bidTooLow (minAcceptableBid data))), w)
    else
      let is_buy_now := buyNowHit data amount_per_tonne_eur
      let amt := clampedAmount data amount_per_tonne_eur
      let bd := placeBidData data bidder_id amount_per_tonne_eur now
      let bidId := w.nextBid
      let w1 := { w with bids := w.bids ++ [(bidId, bd)], nextBid := bidId + 1 }
      let previous_high_bid_id := data.current_high_bid_id
      let reads : ℕ → Option AuctionData := fun i =>
        match intf i with
        | some a => some a
        | none => w1.auction
      let r := casRetry reads (placeBidMut amt bidId bidder_id now is_buy_now)
        wOk Msg.auctionNotFound 5
      let w2 := match r.2.2.1 with
        | some a => { w1 with auction := some a }
        | none => w1
      if r.1 then
        ((some (bidId, bd), none), markPrevOutbid w2 previous_high_bid_id is_buy_now)
      else
        ((none, r.2.1), w2)

/-- `auction_place_bid` under interference-free (sequential) execution. -/
def placeBidSeq (w : World) (bidder_id : String) (amount now : ℚ) :
    (Option (ℕ × BidData) × Option Msg) × World :=
  auction_place_bid w bidder_id amount now (fun _ => none) (fun _ => true)

/-- The `_mutate` closure of `auction_activate`. -/
def activateMut (d : AuctionData) : Option Msg × AuctionData :=
  if d.status ≠ AuctionStatus.scheduled then (some (Msg.cannotActivate d.status), d)
  else (none, { d with status := AuctionStatus.active })

/-- `auction_activate` (interference-free execution). -/
def auction_activate (w : World) : (Bool × Option Msg) × World :=
  auctionCasW w activateMut

/-- `auction_cancel` (interference-free execution). -/
def auction_cancel (w : World) : (Bool × Option Msg) × World :=
  match w.auction with
  | none => ((false, some Msg.auctionNotFound), w)
  | some a =>
    if a.bid_count > 0 then ((false, some Msg.cannotCancelWithBids), w)
    else if a.status ∉ [AuctionStatus.scheduled, AuctionStatus.active] then
      ((false, some (Msg.cannotCancelStatus a.status)), w)
    else
      let w1 := (listing_release_reservation w a.quantity_tonnes).2
      auctionCasW w1 (fun d => (none, { d with status := AuctionStatus.cancelled }))

/-- `auction_fail` (interference-free execution; the `reason` argument is
only logged and is omitted). -/
def auction_fail (w : World) : (Bool × Option Msg) × World :=
  match w.auction with
  | none => ((false, some Msg.auctionNotFound), w)
  | some a =>
    let w1 := (listing_release_reservation w a.quantity_tonnes).2
    auctionCasW w1 (fun d => (none, { d with status := AuctionStatus.failed }))

/-- Sort order of the `auction_get_bids` query: amount descending, then
placement time ascending. -/
def bidOrderLE (a b : ℕ × BidData) : Bool :=
  decide (b.2.amount_per_tonne_eur < a.2.amount_per_tonne_eur) ||
    (decide (a.2.amount_per_tonne_eur = b.2.amount_per_tonne_eur) &&
      decide (a.2.placed_at ≤ b.2.placed_at))

def sortedInsert (x : ℕ × BidData) : List (ℕ × BidData) → List (ℕ × BidData)
  | [] => [x]
  | y :: ys => if bidOrderLE x y then x :: y :: ys else y :: sortedInsert x ys

def sortBids (l : List (ℕ × BidData)) : List (ℕ × BidData) :=
  l.foldr sortedInsert []

/-- `auction_get_bids`: bids of the auction ordered by amount descending,
placed_at ascending, limited. -/
def auction_get_bids (w : World) (limit : ℕ) : List (ℕ × BidData) :=
  (sortBids (w.bids.filter (fun p => p.2.auction_id == theAuctionId))).take limit

/-- Lines 388–390 of auctions.py: Python
`if d.config.reserve_price_per_tonne_eur:` (truthiness — `0.0` counts as
unset) then `if (d.current_high_bid_eur or 0) < reserve`. -/
def reserveUnmet (d : AuctionData) : Bool :=
  match d.config.reserve_price_per_tonne_eur with
  | some rp => decide (rp ≠ 0) && decide ((d.current_high_bid_eur.getD 0) < rp)
  | none => false

/-- The mark-all-other-bids-lost loop of `auction_settle` (lines 406–410),
written as structural recursion over the queried bid list. -/
def markLostAll (winId : ℕ) : World → List (ℕ × BidData) → World
  | w, [] => w
  | w, p :: bs =>
    markLostAll winId
      (if p.1 ≠ winId ∧
          p.2.status ∉ [BidStatus.outbid, BidStatus.won, BidStatus.buy_now] then
        { w with bids := updateBid w.bids p.1 { p.2 with status := BidStatus.lost } }
      else w) bs

/-- `order_create` (operations/orders.py). -/
def order_create (w : World) (buyer_id : String)
    (line_items : List OrderLineItem) (total_eur : ℚ) : ℕ × World :=
  let oid := w.nextOrder
  (oid, { w with
    orders := w.orders ++ [(oid,
      { buyer_id := buyer_id
        status := OrderStatus.pending
        line_items := line_items
        total_eur := total_eur
        stripe_payment_intent_id := none
        completed_at := none })]
    nextOrder := oid + 1 })

/-- The mock payment-intent id of line 431 of auctions.py (the sha256 digest
of the order key is abstracted to the decimal order key). -/
def mockPaymentIntentId (oid : ℕ) : String := "pi_auction_" ++ toString oid

/-- `order_set_payment_intent` (operations/orders.py). -/
def order_set_payment_intent (w : World) (oid : ℕ) (pid : String) : World :=
  { w with orders := w.orders.map (fun p =>
      if p.1 = oid then (p.1, { p.2 with stripe_payment_intent_id := some pid })
      else p) }

/-- `order_update_status` (operations/orders.py): sets `completed_at` only
when the new status is completed. -/
def order_update_status (w : World) (oid : ℕ) (st : OrderStatus) (now : ℚ) :
    World :=
  { w with orders := w.orders.map (fun p =>
      if p.1 = oid then
        (p.1, { p.2 with
          status := st
          completed_at := if st = OrderStatus.completed then some now else p.2.completed_at })
      else p) }

/-- `order_record_ledger_entries`: the TigerBeetle transfers are external;
the model records the invocation in the world's ledger event log. -/
def order_record_ledger_entries (w : World) (oid : ℕ) : World :=
  { w with ledger := w.ledger ++ [oid] }

/-- The `_mark_ended` closure of `auction_settle`. -/
def markEndedMut (d : AuctionData) : Option Msg × AuctionData :=
  (none, { d with status := AuctionStatus.ended })

/-- The `_settle` closure of `auction_settle`. -/
def settleMut (winner : String) (winBid : ℕ) (price : ℚ) (oid : ℕ) (now : ℚ)
    (d : AuctionData) : Option Msg × AuctionData :=
  (none, { d with
    status := AuctionStatus.settled
    winner_id := some winner
    winning_bid_id := some winBid
    winning_price_per_tonne_eur := some price
    order_id := some oid
    settled_at := some now })

/-- The part of `auction_settle` after the settleable check and the optional
mark-as-ended step (lines 387–457 of auctions.py): `d` is the snapshot read
at entry, `w1` the store after the mark-ended CAS. -/
def settleResolve (w1 : World) (d : AuctionData) (now : ℚ) :
    (Bool × Option Msg) × World :=
  if reserveUnmet d then auction_fail w1
  else if d.bid_count = 0 ∨ d.current_high_bid_id = none then auction_fail w1
  else
    match d.current_high_bid_id with
    | none => auction_fail w1   -- unreachable: covered by the previous guard
    | some winId =>
      match lookupBid w1.bids winId with
      | none => ((false, some Msg.winningBidNotFound), w1)
      | some wb0 =>
        let wb := { wb0 with status := BidStatus.won }
        let w2 := { w1 with bids := updateBid w1.bids winId wb }
        let w3 := markLostAll winId w2 (auction_get_bids w2 100)
        match w3.listing with
        | none => ((false, some Msg.listingNotFound), w3)
        | some _ =>
          let winning_price := wb.amount_per_tonne_eur
          let total_eur := wb.total_eur
          let line_items : List OrderLineItem :=
            [⟨d.listing_id, d.quantity_tonnes, winning_price, total_eur⟩]
          let p := order_create w3 wb.bidder_id line_items total_eur
          let w5 := order_set_payment_intent p.2 p.1 (mockPaymentIntentId p.1)
          let w6 := order_update_status w5 p.1 OrderStatus.completed now
          let w7 := order_record_ledger_entries w6 p.1
          let w8 := (listing_confirm_sale w7 d.quantity_tonnes).2
          auctionCasW w8 (settleMut wb.bidder_id winId winning_price p.1 now)

/-- `auction_settle` (interference-free execution). -/
def auction_settle (w : World) (now : ℚ) : (Bool × Option Msg) × World :=
  match w.auction with
  | none => ((false, some Msg.auctionNotFound), w)
  | some d =>
    if d.status ∉ [AuctionStatus.active, AuctionStatus.ended, AuctionStatus.bought_now] then
      ((false, some (Msg.notSettleable d.status)), w)
    else
      let w1 := if d.status = AuctionStatus.active then (auctionCasW w markEndedMut).2 else w
      settleResolve w1 d now

/-- Status of the stored auction. -/
def statusOf (w : World) : Option AuctionStatus := w.auction.map (fun a => a.status)

/-- The spec's lifecycle state machine, read as the set of single
transitions it draws. -/
def lifecycleStep (s t : AuctionStatus) : Bool :=
  decide ((s, t) ∈ [
    (AuctionStatus.scheduled, AuctionStatus.active),
    (AuctionStatus.active, AuctionStatus.ended),
    (AuctionStatus.ended, AuctionStatus.settled),
    (AuctionStatus.ended, AuctionStatus.failed),
    (AuctionStatus.active, AuctionStatus.bought_now),
    (AuctionStatus.bought_now, AuctionStatus.settled),
    (AuctionStatus.scheduled, AuctionStatus.cancelled),
    (AuctionStatus.active, AuctionStatus.cancelled),
    (AuctionStatus.active, AuctionStatus.failed)])

def allAuctionStatuses : List AuctionStatus :=
  [AuctionStatus.scheduled, AuctionStatus.active, AuctionStatus.ended,
   AuctionStatus.settled, AuctionStatus.failed, AuctionStatus.cancelled,
   AuctionStatus.bought_now]

/-- Reachability in at most two machine steps (the longest composite an
embedded operation performs is `active → ended → settled`). -/
def lifecycleReach (s t : AuctionStatus) : Bool :=
  decide (s = t) || lifecycleStep s t ||
    allAuctionStatuses.any (fun m => lifecycleStep s m && lifecycleStep m t)

/-- `lifecycleReach` extended with the one transition the code performs that
the spec's machine does not draw: settlement of a bought-now auction whose
reserve price exceeds the buy-now price moves it `bought_now → failed`. -/
def lifecycleReachX (s t : AuctionStatus) : Bool :=
  lifecycleReach s t ||
    (decide (s = AuctionStatus.bought_now) && decide (t = AuctionStatus.failed))

/-- One operation respects the transition relation `R` on this world. -/
def machineOkBy (R : AuctionStatus → AuctionStatus → Bool) (w w' : World) :
    Prop :=
  ∀ s t, statusOf w = some s → statusOf w' = some t → R s t = true

/-- Erase the two timestamps settlement writes (`settled_at` on the auction,
`completed_at` on orders); everything else an operation computes must be
clock-independent. -/
def scrubTimes (w : World) : World :=
  { w with
    auction := w.auction.map (fun a => { a with settled_at := none })
    orders := w.orders.map (fun p => (p.1, { p.2 with completed_at := none })) }

/-
Concrete fixtures used by the witness and counterexample theorems below.
-/

/-- A listing whose whole stock is already sold: the invariant holds with
`reserved = 0`. -/
def lInv1 : ListingData := ⟨"S", 1, 0, 1, 10, ListingStatus.active⟩

def wInv1 : World := ⟨some lInv1, none, [], [], [], 0, 0⟩

def lInv2 : ListingData := ⟨"S", 10, 2, 3, 10, ListingStatus.active⟩

def wInv2 : World := ⟨some lInv2, none, [], [], [], 0, 0⟩

def lRt1 : ListingData := ⟨"S", 100, 5, 0, 10, ListingStatus.active⟩

def wRt1 : World := ⟨some lRt1, none, [], [], [], 0, 0⟩

def lRt2 : ListingData := ⟨"S", 100, 2, 3, 10, ListingStatus.active⟩

def wRt2 : World := ⟨some lRt2, none, [], [], [], 0, 0⟩

def lCas1 : ListingData := ⟨"S", 10, 0, 0, 10, ListingStatus.active⟩

def lCas2 : ListingData := ⟨"S", 20, 1, 1, 10, ListingStatus.active⟩

/-- Base auction configuration: starting price 10, increment 0.50, no
reserve, no buy-now, 5-minute anti-snipe window and extension. -/
def cfg0 : AuctionConfig := ⟨10, none, none, 1/2, 5, 5⟩

/-- Base active auction: quantity 100 t, runs from 0 to 100, no bids yet. -/
def auction0 : AuctionData :=
  { seller_id := "S"
    listing_id := "L"
    config := cfg0
    quantity_tonnes := 100
    starts_at := 0
    ends_at := 100
    effective_ends_at := 100
    extensions_count := 0
    status := AuctionStatus.active
    current_high_bid_eur := none
    current_high_bid_id := none
    current_high_bidder_id := none
    bid_count := 0
    winner_id := none
    winning_bid_id := none
    winning_price_per_tonne_eur := none
    order_id := none
    settled_at := none }

def lStock : ListingData := ⟨"S", 100, 100, 0, 10, ListingStatus.active⟩

/-- Scenario A world: fresh active auction, starting price 10, no bids. -/
def wMin : World := ⟨some lStock, some auction0, [], [], [], 0, 0⟩

/-- Buy-now auction (buy-now price 50) and its world. -/
def aBuy : AuctionData := { auction0 with config := ⟨10, none, some 50, 1/2, 5, 5⟩ }

def wBuy : World := ⟨some lStock, some aBuy, [], [], [], 0, 0⟩

/-- Degenerate buy-now price 0.0 (falsy in Python) and its world. -/
def aBuy0 : AuctionData := { auction0 with config := ⟨5, none, some 0, 1/2, 5, 5⟩ }

def wBuy0 : World := ⟨some lStock, some aBuy0, [], [], [], 0, 0⟩

/-- An already-placed high bid of 12 on the base auction. -/
def bidHigh : BidData := ⟨theAuctionId, "B1", 12, 1200, 10, BidStatus.active, false⟩

/-- Auction with a current high bid of 12 held by bid 0. -/
def aHigh : AuctionData :=
  { auction0 with
    current_high_bid_eur := some 12
    current_high_bid_id := some 0
    current_high_bidder_id := some ("B1")
    bid_count := 1 }

def wHigh : World := ⟨some lStock, some aHigh, [(0, bidHigh)], [], [], 1, 0⟩

/-- Same as `aHigh` but with a zero minimum bid increment. -/
def aHigh0 : AuctionData := { aHigh with config := ⟨10, none, none, 0, 5, 5⟩ }

def wHigh0 : World := ⟨some lStock, some aHigh0, [(0, bidHigh)], [], [], 1, 0⟩

/-- A settled auction (terminal state). -/
def aSettled : AuctionData := { auction0 with status := AuctionStatus.settled }

def wTerm : World := ⟨some lStock, some aSettled, [], [], [], 0, 0⟩

/-- Fresh active auction for the bid-race (C9) fixtures. -/
def wRace : World := ⟨some lStock, some auction0, [], [], [], 0, 0⟩

/-- The auction document a concurrent settlement would leave behind. -/
def aEnded : AuctionData := { auction0 with status := AuctionStatus.ended }

/-- Ended auction with high bid 12 (bid 0), ready to settle. -/
def aDone : AuctionData := { aHigh with status := AuctionStatus.ended }

def wDone : World := ⟨some lStock, some aDone, [(0, bidHigh)], [], [], 1, 0⟩

/-- Active auction with a high bid, well before its end time. -/
def wEarly : World := ⟨some lStock, some aHigh, [(0, bidHigh)], [], [], 1, 0⟩

/-- Active auction with no bids at all. -/
def wNoBids : World := ⟨some lStock, some auction0, [], [], [], 0, 0⟩

/-- Active auction world for the state-machine witness. -/
def wLife : World := ⟨some lStock, some auction0, [], [], [], 0, 0⟩

/-
Foundational evaluation lemmas.
-/

/-- One unfolding step of the CAS loop. -/
theorem casRetryGo_step {α : Type} (reads : ℕ → Option α) (m : α → Option Msg × α)
    (wOk : ℕ → Bool) (nf : Msg) (attempt n backoffMs writes : ℕ) (sleeps : List ℕ) :
    casRetryGo reads m wOk nf attempt (n + 1) backoffMs writes sleeps =
      match reads attempt with
      | none => (false, some nf, none, writes, sleeps)
      | some x =>
        match m x with
        | (some e, _) => (false, some e, none, writes, sleeps)
        | (none, x') =>
          if wOk attempt then
            (true, none, some x', writes + 1, sleeps)
          else if n = 0 then
            (false, some Msg.concurrentUpdateConflict, none, writes + 1, sleeps)
          else
            casRetryGo reads m wOk nf (attempt + 1) n (backoffMs * 2)
              (writes + 1) (sleeps ++ [backoffMs]) := rfl

/-- Location-free reads, always-successful writes: the CAS helper reduces to
a single read-mutate-write cycle (document absent). -/
theorem casRetry_seq_none {α : Type} (m : α → Option Msg × α) (nf : Msg) (k : ℕ) :
    casRetry (fun _ => (none : Option α)) m (fun _ => true) nf k =
      (false, some nf, none, 0, []) := rfl

/-- Sequential execution on a present document: the CAS helper reduces to a
single read-mutate-write cycle. -/
theorem casRetry_seq_some {α : Type} (x : α) (m : α → Option Msg × α) (nf : Msg) (k : ℕ) :
    casRetry (fun _ => some x) m (fun _ => true) nf k =
      (match m x with
       | (some e, _) => (false, some e, none, 0, [])
       | (none, x') => (true, none, some x', 1, [])) := by
  rcases hm : m x with ⟨e, x'⟩
  cases e <;> simp [casRetry, casRetryGo, hm]

/-- `_listing_cas_retry` under sequential execution, fully evaluated. -/
theorem listingCasW_eq (w : World) (m : ListingData → Option Msg × ListingData) :
    listingCasW w m =
      match w.listing with
      | none => ((false, some Msg.listingNotFound), w)
      | some l =>
        match m l with
        | (some e, _) => ((false, some e), w)
        | (none, l') => ((true, none), { w with listing := some l' }) := by
  cases hw : w.listing with
  | none => simp [listingCasW, hw, casRetry_seq_none]
  | some l =>
    rcases hm : m l with ⟨e, l'⟩
    cases e <;> simp [listingCasW, hw, hm, casRetry_seq_some]

/-- `_auction_cas_retry` under sequential execution, fully evaluated. -/
theorem auctionCasW_eq (w : World) (m : AuctionData → Option Msg × AuctionData) :
    auctionCasW w m =
      match w.auction with
      | none => ((false, some Msg.auctionNotFound), w)
      | some a =>
        match m a with
        | (some e, _) => ((false, some e), w)
        | (none, a') => ((true, none), { w with auction := some a' }) := by
  cases hw : w.auction with
  | none => simp [auctionCasW, hw, casRetry_seq_none]
  | some a =>
    rcases hm : m a with ⟨e, a'⟩
    cases e <;> simp [auctionCasW, hw, hm, casRetry_seq_some]

/-
Inventory invariant (claim C1).
-/

theorem reserveQuantityMut_inv (q : ℚ) (l : ListingData) (h : ListingInv l) :
    ListingInv (reserveQuantityMut q l).2 := by
  obtain ⟨h0, h1⟩ := h
  unfold reserveQuantityMut ListingInv
  dsimp only
  by_cases hq : q < 0
  · rw [if_pos hq]
    split
    · exact ⟨h0, h1⟩
    · rename_i hc
      rw [gt_iff_lt, not_lt] at hc
      refine ⟨le_max_right _ _, ?_⟩
      dsimp only
      linarith
  · rw [if_neg hq]
    rw [not_lt] at hq
    split
    · exact ⟨h0, h1⟩
    · rename_i hc
      rw [gt_iff_lt, not_lt] at hc
      refine ⟨?_, ?_⟩ <;> dsimp only <;> linarith

theorem releaseReservationMut_inv (q : ℚ) (l : ListingData) (h : ListingInv l)
    (hq : 0 ≤ q) : ListingInv (releaseReservationMut q l).2 := by
  obtain ⟨h0, h1⟩ := h
  unfold releaseReservationMut ListingInv
  refine ⟨le_max_right _ _, ?_⟩
  dsimp only
  have hm : max (l.quantity_reserved - q) 0 ≤ l.quantity_tonnes - l.quantity_sold :=
    max_le (by linarith) (by linarith)
  linarith

theorem confirmSaleMut_inv (q : ℚ) (l : ListingData) (h : ListingInv l)
    (hq : q ≤ l.quantity_tonnes - l.quantity_sold) :
    ListingInv (confirmSaleMut q l).2 := by
  obtain ⟨h0, h1⟩ := h
  unfold confirmSaleMut ListingInv
  dsimp only
  have hm : max (l.quantity_reserved - q) 0 ≤ l.quantity_tonnes - (l.quantity_sold + q) :=
    max_le (by linarith) (by linarith)
  split <;> exact ⟨le_max_right _ _, by dsimp only; linarith⟩

/-- If the mutator preserves the invariant on the stored listing, so does the
whole CAS-guarded operation. -/
theorem listingCasW_inv (w : World) (m : ListingData → Option Msg × ListingData)
    (l : ListingData) (hw : w.listing = some l) (hl : ListingInv l)
    (hm : ListingInv (m l).2) : ListingInvW (listingCasW w m).2 := by
  intro l' hl'
  rw [listingCasW_eq, hw] at hl'
  dsimp only at hl'
  rcases hmm : m l with ⟨e, l₂⟩
  rw [hmm] at hl'
  cases e with
  | none =>
    dsimp only at hl'
    injection hl' with hll
    rw [hmm] at hm
    rwa [← hll]
  | some e =>
    dsimp only at hl'
    rw [hw] at hl'
    injection hl' with hll
    rwa [← hll]

/-- Claim C1, counterexample: on a listing with total 1, reserved 0, sold 1
(which satisfies `0 ≤ reserved ≤ total − sold`), `listing_release_reservation`
with quantity −1 succeeds and leaves reserved = 1, so
`reserved + sold = 2 > 1 = total`: the invariant is not preserved for
arbitrary quantity arguments. -/
theorem listing_release_negative_cex :
    ListingInv lInv1 ∧
    (listing_release_reservation wInv1 (-1)).1.1 = true ∧
    (listing_release_reservation wInv1 (-1)).2.listing =
      some ⟨"S", 1, 1, 1, 10, ListingStatus.active⟩ ∧
    ¬ ListingInv (⟨"S", 1, 1, 1, 10, ListingStatus.active⟩ : ListingData) := by
  norm_num [ListingInv, listing_release_reservation, listingCasW_eq,
    releaseReservationMut, wInv1, lInv1, max_def]

/-- Claim C1 (amended): starting from a listing satisfying
`0 ≤ reserved ≤ total − sold`, the invariant `0 ≤ reserved` and
`reserved + sold ≤ total` still holds after `listing_reserve_quantity` with
any quantity, after `listing_release_reservation` with any nonnegative
quantity, and after `listing_confirm_sale` with any quantity at most
`total − sold` (the counterexample forces the last two restrictions). -/
theorem listing_ops_preserve_inventory_invariant (w : World) (l : ListingData)
    (q : ℚ) (hw : w.listing = some l) (h : ListingInv l) :
    ListingInvW (listing_reserve_quantity w q).2 ∧
    (0 ≤ q → ListingInvW (listing_release_reservation w q).2) ∧
    (q ≤ l.quantity_tonnes - l.quantity_sold →
      ListingInvW (listing_confirm_sale w q).2) := by
  refine ⟨?_, fun hq => ?_, fun hq => ?_⟩
  · exact listingCasW_inv w _ l hw h (reserveQuantityMut_inv q l h)
  · exact listingCasW_inv w _ l hw h (releaseReservationMut_inv q l h hq)
  · exact listingCasW_inv w _ l hw h (confirmSaleMut_inv q l h hq)

/-- Witness for the amended C1, at a listing with total 10, reserved 2,
sold 3, and quantity 1. -/
theorem listing_ops_preserve_inventory_invariant_witness :
    ListingInvW (listing_reserve_quantity wInv2 1).2 ∧
    ListingInvW (listing_release_reservation wInv2 1).2 ∧
    ListingInvW (listing_confirm_sale wInv2 1).2 := by
  obtain ⟨a, b, c⟩ :=
    listing_ops_preserve_inventory_invariant wInv2 lInv2 1 rfl
      (by norm_num [ListingInv, lInv2])
  exact ⟨a, b (by norm_num), c (by norm_num [lInv2])⟩

/-
Reserve/release round trip (claim C8).
-/

/-- Claim C8, counterexample: on a listing with reserved = 5, a reserve of
−10 succeeds (clamping reserved to 0), and the subsequent release of −10
leaves reserved = 10, not the prior 5: the round trip does not restore
`reserved` for arbitrary quantities. -/
theorem round_trip_negative_cex :
    (listing_reserve_quantity wRt1 (-10)).1.1 = true ∧
    (listing_release_reservation (listing_reserve_quantity wRt1 (-10)).2 (-10)).2.listing
      = some ⟨"S", 100, 10, 0, 10, ListingStatus.active⟩ ∧
    lRt1.quantity_reserved = 5 := by
  norm_num [listing_reserve_quantity, listing_release_reservation,
    listingCasW_eq, reserveQuantityMut, releaseReservationMut, wRt1, lRt1,
    max_def]

/-- Claim C8 (amended): when `0 ≤ reserved` and `0 ≤ reserved + q` (so the
reserve step does not clamp at 0 — the counterexample forces this), a
successful `listing_reserve_quantity q` followed by
`listing_release_reservation q` restores the listing exactly, in particular
`reserved`, `total` and `sold`. -/
theorem reserve_release_round_trip (w : World) (l : ListingData) (q : ℚ)
    (hw : w.listing = some l) (h0 : 0 ≤ l.quantity_reserved)
    (h1 : 0 ≤ l.quantity_reserved + q)
    (hok : (listing_reserve_quantity w q).1.1 = true) :
    (listing_release_reservation (listing_reserve_quantity w q).2 q).2.listing
      = some l := by
  have hnew : (if q < 0 then max (l.quantity_reserved + q) 0
      else l.quantity_reserved + q) = l.quantity_reserved + q := by
    split
    · exact max_eq_left h1
    · rfl
  by_cases hc : l.quantity_reserved + q > l.quantity_tonnes - l.quantity_sold
  · have hmm : reserveQuantityMut q l
        = (some (Msg.insufficientAvailability q
            (l.quantity_tonnes - l.quantity_sold - l.quantity_reserved)), l) := by
      unfold reserveQuantityMut
      dsimp only
      rw [hnew, if_pos hc]
    unfold listing_reserve_quantity at hok
    rw [listingCasW_eq, hw] at hok
    dsimp only at hok
    rw [hmm] at hok
    simp at hok
  · have hmm : reserveQuantityMut q l
        = (none, { l with quantity_reserved := l.quantity_reserved + q }) := by
      unfold reserveQuantityMut
      dsimp only
      rw [hnew, if_neg hc]
    have hres : (listing_reserve_quantity w q).2
        = { w with listing := some { l with quantity_reserved := l.quantity_reserved + q } } := by
      unfold listing_reserve_quantity
      rw [listingCasW_eq, hw]
      dsimp only
      rw [hmm]
    rw [hres]
    unfold listing_release_reservation
    rw [listingCasW_eq]
    dsimp only [releaseReservationMut]
    have hback : max (l.quantity_reserved + q - q) 0 = l.quantity_reserved := by
      rw [add_sub_cancel_right]
      exact max_eq_left h0
    simp only [hback]

/-- Witness for the amended C8, at a listing with reserved 2, sold 3,
total 100 and quantity 4. -/
theorem reserve_release_round_trip_witness :
    (listing_release_reservation (listing_reserve_quantity wRt2 4).2 4).2.listing
      = some lRt2 :=
  reserve_release_round_trip wRt2 lRt2 4 rfl (by norm_num [lRt2])
    (by norm_num [lRt2])
    (by norm_num [listing_reserve_quantity, listingCasW_eq, reserveQuantityMut,
      wRt2, lRt2])

/-
CAS retry policy (claim C3).
-/

/-- The exponential backoff schedule: `k` sleeps starting at `b` ms,
doubling each time. -/
def backoffSeq : ℕ → ℕ → List ℕ
  | _, 0 => []
  | b, k + 1 => b :: backoffSeq (b * 2) k

theorem backoffSeq_succ (b k : ℕ) :
    backoffSeq b (k + 1) = b :: backoffSeq (b * 2) k := rfl

theorem casRetryGo_writes_le {α : Type} (reads : ℕ → Option α)
    (m : α → Option Msg × α) (wOk : ℕ → Bool) (nf : Msg) :
    ∀ (n attempt backoffMs writes : ℕ) (sleeps : List ℕ),
      (casRetryGo reads m wOk nf attempt n backoffMs writes sleeps).2.2.2.1
        ≤ writes + n := by
  intro n
  induction n with
  | zero => intro attempt b writes s; simp [casRetryGo]
  | succ n ih =>
    intro attempt b writes s
    rw [casRetryGo_step]
    cases hr : reads attempt with
    | none => simp
    | some x =>
      dsimp only
      rcases hm : m x with ⟨e, x'⟩
      cases e with
      | some e => dsimp only; omega
      | none =>
        dsimp only
        by_cases hok : wOk attempt
        · rw [if_pos hok]
          dsimp only
          omega
        · rw [if_neg hok]
          by_cases hn : n = 0
          · rw [if_pos hn]
            dsimp only
            omega
          · rw [if_neg hn]
            have := ih (attempt + 1) (b * 2) (writes + 1) (s ++ [b])
            omega

theorem casRetryGo_sleeps {α : Type} (reads : ℕ → Option α)
    (m : α → Option Msg × α) (wOk : ℕ → Bool) (nf : Msg) :
    ∀ (n attempt backoffMs writes : ℕ) (sleeps : List ℕ),
      ∃ k, k ≤ n - 1 ∧
        (casRetryGo reads m wOk nf attempt n backoffMs writes sleeps).2.2.2.2
          = sleeps ++ backoffSeq backoffMs k := by
  intro n
  induction n with
  | zero =>
    intro attempt b writes s
    exact ⟨0, Nat.le_refl _, by simp [casRetryGo, backoffSeq]⟩
  | succ n ih =>
    intro attempt b writes s
    rw [casRetryGo_step]
    cases hr : reads attempt with
    | none => exact ⟨0, by omega, by simp [backoffSeq]⟩
    | some x =>
      dsimp only
      rcases hm : m x with ⟨e, x'⟩
      cases e with
      | some e => exact ⟨0, by omega, by simp [backoffSeq]⟩
      | none =>
        dsimp only
        by_cases hok : wOk attempt
        · rw [if_pos hok]
          exact ⟨0, by omega, by simp [backoffSeq]⟩
        · rw [if_neg hok]
          by_cases hn : n = 0
          · rw [if_pos hn]
            exact ⟨0, by omega, by simp [backoffSeq]⟩
          · rw [if_neg hn]
            obtain ⟨k, hk, hs⟩ := ih (attempt + 1) (b * 2) (writes + 1) (s ++ [b])
            refine ⟨k + 1, by omega, ?_⟩
            rw [hs, backoffSeq_succ, List.append_assoc, List.singleton_append]

theorem casRetryGo_conflict {α : Type} (reads : ℕ → Option α)
    (m : α → Option Msg × α) (wOk : ℕ → Bool) (nf : Msg)
    (hr : ∀ i, ∃ x, reads i = some x ∧ (m x).1 = none)
    (hw : ∀ i, wOk i = false) :
    ∀ (n attempt backoffMs writes : ℕ) (sleeps : List ℕ), n ≠ 0 →
      casRetryGo reads m wOk nf attempt n backoffMs writes sleeps
        = (false, some Msg.concurrentUpdateConflict, none, writes + n,
           sleeps ++ backoffSeq backoffMs (n - 1)) := by
  intro n
  induction n with
  | zero => intro _ _ _ _ h; exact absurd rfl h
  | succ n ih =>
    intro attempt b writes s _
    obtain ⟨x, hx, hmx⟩ := hr attempt
    rcases hm : m x with ⟨e, x'⟩
    rw [hm] at hmx
    dsimp only at hmx
    subst hmx
    rw [casRetryGo_step, hx]
    dsimp only
    rw [hm]
    dsimp only
    rw [if_neg (by rw [hw attempt]; exact Bool.false_ne_true)]
    by_cases hn : n = 0
    · subst hn
      simp [backoffSeq]
    · rw [if_neg hn, ih (attempt + 1) (b * 2) (writes + 1) (s ++ [b]) hn]
      have h1 : n + 1 - 1 = (n - 1) + 1 := by omega
      have h2 : writes + 1 + n = writes + (n + 1) := by omega
      rw [h1, backoffSeq_succ, h2, List.append_assoc, List.singleton_append]

/-- Claim C3, counterexample: a run of the CAS-retry helper (here on a
listing with the `listing_release_reservation` mutator, with every write
raising a version conflict) performs 6 write attempts — the loop runs
`max_retries + 1 = 6` times — not at most 5 as claimed. -/
theorem cas_retry_six_write_attempts_cex :
    casRetry (fun _ => some lCas1) (releaseReservationMut 1) (fun _ => false)
        Msg.listingNotFound 5
      = (false, some Msg.concurrentUpdateConflict, none, 6,
         [10, 20, 40, 80, 160]) ∧
    ¬ (6 ≤ 5) := ⟨rfl, by omega⟩

/-- Claim C3 (amended): with the default `max_retries = 5`, the CAS-retry
helper shared by the listing and auction operations performs at most 6 write
attempts (one initial plus five retries); its backoff sleeps are a prefix of
10/20/40/80/160 ms (10 ms before the second write attempt, doubling
thereafter); and when the document is always readable, the mutator never
aborts, and every write attempt fails with a version conflict, it returns a
failure carrying the distinct concurrent-update-conflict message — never a
silent success. -/
theorem cas_retry_policy {α : Type} (reads : ℕ → Option α)
    (m : α → Option Msg × α) (wOk : ℕ → Bool) (nf : Msg) :
    (casRetry reads m wOk nf 5).2.2.2.1 ≤ 6 ∧
    (casRetry reads m wOk nf 5).2.2.2.2 ∈
      [([] : List ℕ), [10], [10, 20], [10, 20, 40], [10, 20, 40, 80],
       [10, 20, 40, 80, 160]] ∧
    ((∀ i, ∃ x, reads i = some x ∧ (m x).1 = none) → (∀ i, wOk i = false) →
      casRetry reads m wOk nf 5
        = (false, some Msg.concurrentUpdateConflict, none, 6,
           [10, 20, 40, 80, 160])) := by
  refine ⟨?_, ?_, ?_⟩
  · exact casRetryGo_writes_le reads m wOk nf 6 0 10 0 []
  · obtain ⟨k, hk, hs⟩ := casRetryGo_sleeps reads m wOk nf 6 0 10 0 []
    have hk5 : k ≤ 5 := by omega
    unfold casRetry
    rw [hs]
    interval_cases k <;> simp [backoffSeq]
  · intro hr hw
    unfold casRetry
    rw [casRetryGo_conflict reads m wOk nf hr hw 6 0 10 0 [] (by omega)]
    rfl

/-- Witness for the amended C3: the policy instantiated at a concrete
always-conflicting run, with the all-conflict premises discharged. -/
theorem cas_retry_policy_witness :
    (casRetry (fun _ => some lCas2) (releaseReservationMut 1) (fun _ => false)
        Msg.listingNotFound 5).2.2.2.1 ≤ 6 ∧
    (casRetry (fun _ => some lCas2) (releaseReservationMut 1) (fun _ => false)
        Msg.listingNotFound 5).2.2.2.2 ∈
      [([] : List ℕ), [10], [10, 20], [10, 20, 40], [10, 20, 40, 80],
       [10, 20, 40, 80, 160]] ∧
    casRetry (fun _ => some lCas2) (releaseReservationMut 1) (fun _ => false)
        Msg.listingNotFound 5
      = (false, some Msg.concurrentUpdateConflict, none, 6,
         [10, 20, 40, 80, 160]) := by
  obtain ⟨a, b, c⟩ := cas_retry_policy (fun _ => some lCas2)
    (releaseReservationMut 1) (fun _ => false) Msg.listingNotFound
  exact ⟨a, b, c (fun i => ⟨lCas2, rfl, rfl⟩) (fun i => rfl)⟩

/-
Bid placement (claims C4, C5, C7, C9).
-/

theorem placeBidMut_active (amt : ℚ) (bidId : ℕ) (bidder : String) (now : ℚ)
    (ibn : Bool) (d : AuctionData) (h : d.status = AuctionStatus.active) :
    (placeBidMut amt bidId bidder now ibn d).1 = none := by
  unfold placeBidMut
  rw [if_neg (by simp [h])]

theorem placeBidMut_result (amt : ℚ) (bidId : ℕ) (bidder : String) (now : ℚ)
    (ibn : Bool) (d : AuctionData) (h : d.status = AuctionStatus.active) :
    ((placeBidMut amt bidId bidder now ibn d).2).status
        = (if ibn then AuctionStatus.bought_now else AuctionStatus.active) ∧
    ((placeBidMut amt bidId bidder now ibn d).2).current_high_bid_eur = some amt ∧
    ((placeBidMut amt bidId bidder now ibn d).2).current_high_bid_id = some bidId ∧
    ((placeBidMut amt bidId bidder now ibn d).2).bid_count = d.bid_count + 1 ∧
    (ibn = true →
      ((placeBidMut amt bidId bidder now ibn d).2).winner_id = some bidder ∧
      ((placeBidMut amt bidId bidder now ibn d).2).winning_bid_id = some bidId ∧
      ((placeBidMut amt bidId bidder now ibn d).2).winning_price_per_tonne_eur
        = some amt) := by
  unfold placeBidMut
  rw [if_neg (by simp [h])]
  dsimp only
  refine ⟨?_, ?_, ?_, ?_, ?_⟩
  · cases ibn <;> simp [h] <;> try (split <;> simp [h])
  · cases ibn <;> simp [h] <;> try (split <;> simp [h])
  · cases ibn <;> simp [h] <;> try (split <;> simp [h])
  · cases ibn <;> simp [h] <;> try (split <;> simp [h])
  · intro hibn
    subst hibn
    simp [h] <;> try (split <;> simp [h])

/-- The four rejection branches of `auction_place_bid`, under any
interference and write oracle. -/
theorem place_bid_rejections (w : World) (bidder : String) (amount now : ℚ)
    (intf : ℕ → Option AuctionData) (wOk : ℕ → Bool) :
    (w.auction = none →
      auction_place_bid w bidder amount now intf wOk
        = ((none, some Msg.auctionNotFound), w)) ∧
    (∀ data, w.auction = some data →
      ((data.status ≠ AuctionStatus.active →
        auction_place_bid w bidder amount now intf wOk
          = ((none, some (Msg.auctionNotActive data.status)), w)) ∧
       (data.status = AuctionStatus.active → now > data.effective_ends_at →
        auction_place_bid w bidder amount now intf wOk
          = ((none, some Msg.auctionEnded), w)) ∧
       (data.status = AuctionStatus.active → ¬ now > data.effective_ends_at →
        data.seller_id = bidder →
        auction_place_bid w bidder amount now intf wOk
          = ((none, some Msg.ownAuction), w)) ∧
       (data.status = AuctionStatus.active → ¬ now > data.effective_ends_at →
        ¬ data.seller_id = bidder → amount < minAcceptableBid data →
        auction_place_bid w bidder amount now intf wOk
          = ((none, some (Msg.bidTooLow (minAcceptableBid data))), w)))) := by
  constructor
  · intro hw
    unfold auction_place_bid
    rw [hw]
  · intro data hw
    refine ⟨?_, ?_, ?_, ?_⟩
    · intro hs
      unfold auction_place_bid
      rw [hw]
      dsimp only
      rw [if_pos hs]
    · intro hs ht
      unfold auction_place_bid
      rw [hw]
      dsimp only
      rw [if_neg (by simp [hs]), if_pos ht]
    · intro hs ht hself
      unfold auction_place_bid
      rw [hw]
      dsimp only
      rw [if_neg (by simp [hs]), if_neg ht, if_pos hself]
    · intro hs ht hself hlow
      unfold auction_place_bid
      rw [hw]
      dsimp only
      rw [if_neg (by simp [hs]), if_neg ht, if_neg hself, if_pos hlow]

/-- Interference-free successful bid placement, fully evaluated: the bid
document is created with id `w.nextBid`, the auction is updated through
`placeBidMut`, and the previous high bid is marked outbid. -/
theorem placeBidSeq_eq (w : World) (data : AuctionData) (bidder : String)
    (amount now : ℚ)
    (hw : w.auction = some data) (hact : data.status = AuctionStatus.active)
    (hend : ¬ now > data.effective_ends_at) (hsell : ¬ data.seller_id = bidder)
    (hmin : ¬ amount < minAcceptableBid data) :
    placeBidSeq w bidder amount now
      = ((some (w.nextBid, placeBidData data bidder amount now), none),
         markPrevOutbid
           { w with
             bids := w.bids ++ [(w.nextBid, placeBidData data bidder amount now)]
             nextBid := w.nextBid + 1
             auction := some ((placeBidMut (clampedAmount data amount) w.nextBid
               bidder now (buyNowHit data amount) data).2) }
           data.current_high_bid_id (buyNowHit data amount)) := by
  unfold placeBidSeq auction_place_bid
  rw [hw]
  dsimp only
  rw [if_neg (by simp [hact]), if_neg hend, if_neg hsell, if_neg hmin]
  rw [casRetry_seq_some]
  rcases hp : placeBidMut (clampedAmount data amount) w.nextBid bidder now
      (buyNowHit data amount) data with ⟨e, a'⟩
  have he : e = none := by
    have := placeBidMut_active (clampedAmount data amount) w.nextBid bidder now
      (buyNowHit data amount) data hact
    rw [hp] at this
    exact this
  subst he
  rfl

/-- Claim C4 (confirmed): the minimum acceptable bid is the starting price
with no current high bid and `high + increment` otherwise; a bid below the
minimum is rejected with the bid-too-low error and the state unchanged; a
bid at or above it passes the amount check (placement succeeds under
interference-free execution); on the fresh scenario-A auction (starting
price 10), 9.99 is rejected and 10.00 is accepted with
`current_high_bid = 10` and `bid_count = 1`. -/
theorem place_bid_minimum_rule (w : World) (data : AuctionData)
    (bidder : String) (amount now : ℚ) (hw : w.auction = some data)
    (hact : data.status = AuctionStatus.active)
    (hend : ¬ now > data.effective_ends_at)
    (hsell : ¬ data.seller_id = bidder) :
    (data.current_high_bid_eur = none →
      minAcceptableBid data = data.config.starting_price_per_tonne_eur) ∧
    (∀ h, data.current_high_bid_eur = some h →
      minAcceptableBid data = h + data.config.min_bid_increment_eur) ∧
    (amount < minAcceptableBid data →
      placeBidSeq w bidder amount now
        = ((none, some (Msg.bidTooLow (minAcceptableBid data))), w)) ∧
    (¬ amount < minAcceptableBid data →
      (placeBidSeq w bidder amount now).1.2 = none ∧
      ((placeBidSeq w bidder amount now).1.1).isSome = true) ∧
    (placeBidSeq wMin ("B") (999/100) 50).1
      = (none, some (Msg.bidTooLow 10)) ∧
    (placeBidSeq wMin ("B") 10 50).1.2 = none ∧
    ((placeBidSeq wMin ("B") 10 50).2.auction.map
        (fun a => (a.current_high_bid_eur, a.bid_count))) = some (some 10, 1) := by
  have h0 : minAcceptableBid auction0 = 10 := rfl
  refine ⟨?_, ?_, ?_, ?_, ?_, ?_, ?_⟩
  · intro h
    unfold minAcceptableBid
    rw [h]
  · intro h hh
    unfold minAcceptableBid
    rw [hh]
  · intro hlow
    have hr := ((place_bid_rejections w bidder amount now (fun _ => none)
      (fun _ => true)).2 data hw).2.2.2 hact hend hsell hlow
    unfold placeBidSeq
    rw [hr]
  · intro hmin
    rw [placeBidSeq_eq w data bidder amount now hw hact hend hsell hmin]
    exact ⟨rfl, rfl⟩
  · have hr := ((place_bid_rejections wMin ("B") (999/100) 50 (fun _ => none)
      (fun _ => true)).2 auction0 rfl).2.2.2 rfl (by norm_num [auction0])
      (by simp [auction0]) (by rw [h0]; norm_num)
    unfold placeBidSeq
    rw [hr, h0]
  · rw [placeBidSeq_eq wMin auction0 ("B") 10 50 rfl rfl (by norm_num [auction0])
      (by simp [auction0]) (by rw [h0]; norm_num)]
  · rw [placeBidSeq_eq wMin auction0 ("B") 10 50 rfl rfl (by norm_num [auction0])
      (by simp [auction0]) (by rw [h0]; norm_num)]
    have hbn : buyNowHit auction0 10 = false := rfl
    have hcl : clampedAmount auction0 10 = 10 := rfl
    obtain ⟨hst, hhb, hhid, hbc, _⟩ := placeBidMut_result (clampedAmount auction0 10)
      wMin.nextBid ("B") 50 (buyNowHit auction0 10) auction0 rfl
    rw [show auction0.current_high_bid_id = none from rfl]
    simp only [markPrevOutbid, Option.map_some']
    rw [hhb, hbc, hcl]
    rfl

/-- Witness for C4, at the scenario-A world and a bid of 10. -/
theorem place_bid_minimum_rule_witness :
    (auction0.current_high_bid_eur = none →
      minAcceptableBid auction0 = auction0.config.starting_price_per_tonne_eur) ∧
    (∀ h, auction0.current_high_bid_eur = some h →
      minAcceptableBid auction0 = h + auction0.config.min_bid_increment_eur) ∧
    ((10:ℚ) < minAcceptableBid auction0 →
      placeBidSeq wMin ("B") 10 50
        = ((none, some (Msg.bidTooLow (minAcceptableBid auction0))), wMin)) ∧
    (¬ (10:ℚ) < minAcceptableBid auction0 →
      (placeBidSeq wMin ("B") 10 50).1.2 = none ∧
      ((placeBidSeq wMin ("B") 10 50).1.1).isSome = true) ∧
    (placeBidSeq wMin ("B") (999/100) 50).1
      = (none, some (Msg.bidTooLow 10)) ∧
    (placeBidSeq wMin ("B") 10 50).1.2 = none ∧
    ((placeBidSeq wMin ("B") 10 50).2.auction.map
        (fun a => (a.current_high_bid_eur, a.bid_count))) = some (some 10, 1) :=
  place_bid_minimum_rule wMin auction0 ("B") 10 50 rfl rfl
    (by norm_num [auction0]) (by simp [auction0])

/-- Claim C7, counterexample: with `min_bid_increment_eur = 0` (a legal
config value), a bid exactly equal to the current high bid of 12 is
accepted, not rejected — the minimum-bid check only eliminates equal-amount
bids when the increment is positive. -/
theorem equal_bid_zero_increment_cex :
    (wHigh0.auction.map
        (fun a => (a.current_high_bid_eur, a.config.min_bid_increment_eur)))
      = some (some 12, 0) ∧
    (placeBidSeq wHigh0 ("B2") 12 50).1.2 = none ∧
    ((placeBidSeq wHigh0 ("B2") 12 50).1.1).isSome = true := by
  refine ⟨rfl, ?_, ?_⟩ <;>
    rw [placeBidSeq_eq wHigh0 aHigh0 ("B2") 12 50 rfl rfl
      (by norm_num [aHigh0, aHigh, auction0])
      (by simp [aHigh0, aHigh, auction0])
      (by norm_num [minAcceptableBid, aHigh0, aHigh, auction0])] <;> rfl

/-- Claim C7 (amended): on an active auction with current high bid `h` and a
config whose minimum increment is positive — the counterexample forces this
restriction, which the default config value 0.50 satisfies — a bid of
exactly `h` is rejected by the minimum-bid check with the bid-too-low error,
so no two accepted bids carry equal amounts. -/
theorem equal_bid_rejected (w : World) (data : AuctionData) (bidder : String)
    (h now : ℚ) (hw : w.auction = some data)
    (hact : data.status = AuctionStatus.active)
    (hend : ¬ now > data.effective_ends_at) (hsell : ¬ data.seller_id = bidder)
    (hh : data.current_high_bid_eur = some h)
    (hinc : 0 < data.config.min_bid_increment_eur) :
    placeBidSeq w bidder h now
      = ((none, some (Msg.bidTooLow (h + data.config.min_bid_increment_eur))), w) := by
  have hm : minAcceptableBid data = h + data.config.min_bid_increment_eur := by
    unfold minAcceptableBid
    rw [hh]
  have hlow : h < minAcceptableBid data := by
    rw [hm]
    linarith
  have hr := ((place_bid_rejections w bidder h now (fun _ => none)
    (fun _ => true)).2 data hw).2.2.2 hact hend hsell hlow
  unfold placeBidSeq
  rw [hr, hm]

/-- Witness for the amended C7: an equal bid of 12 against a high bid of 12
with increment 0.50 is rejected. -/
theorem equal_bid_rejected_witness :
    placeBidSeq wHigh ("B2") 12 50
      = ((none, some (Msg.bidTooLow (12 + aHigh.config.min_bid_increment_eur))), wHigh) :=
  equal_bid_rejected wHigh aHigh ("B2") 12 50 rfl rfl
    (by norm_num [aHigh, auction0]) (by simp [aHigh, auction0]) rfl
    (by norm_num [aHigh, auction0, cfg0])

/-- Claim C5, counterexample: a configured buy-now price of 0.0 is falsy in
Python, so the buy-now branch is skipped: a bid of 5 (≥ 0) on such an
auction is recorded unclamped with status `active`, and the auction stays
`active` instead of becoming `bought_now`. -/
theorem buy_now_zero_cex :
    (wBuy0.auction.map (fun a => a.config.buy_now_price_per_tonne_eur))
      = some (some 0) ∧
    (placeBidSeq wBuy0 ("B") 5 50).1.2 = none ∧
    ((placeBidSeq wBuy0 ("B") 5 50).1.1.map
        (fun b => (b.2.is_buy_now, b.2.status, b.2.amount_per_tonne_eur)))
      = some (false, BidStatus.active, 5) ∧
    ((placeBidSeq wBuy0 ("B") 5 50).2.auction.map (fun a => a.status))
      = some AuctionStatus.active := by
  have hrw := placeBidSeq_eq wBuy0 aBuy0 ("B") 5 50 rfl rfl
    (by norm_num [aBuy0, auction0]) (by simp [aBuy0, auction0])
    (by norm_num [minAcceptableBid, aBuy0, auction0])
  have hbn : buyNowHit aBuy0 5 = false := rfl
  refine ⟨rfl, ?_, ?_, ?_⟩
  · rw [hrw]
  · rw [hrw]
    rfl
  · rw [hrw]
    rw [show aBuy0.current_high_bid_id = none from rfl]
    simp only [markPrevOutbid, Option.map_some']
    have hst := (placeBidMut_result (clampedAmount aBuy0 5) wBuy0.nextBid ("B") 50
      (buyNowHit aBuy0 5) aBuy0 rfl).1
    rw [hbn] at hst
    rw [hbn, hst]
    rfl

/-- Claim C5 (amended): for an auction whose config sets a nonzero buy-now
price `p` — the counterexample forces nonzero, since Python treats a 0.0
price as unset — a valid bid with amount ≥ p is recorded clamped to exactly
`p` with bid status `buy_now`, and the same CAS update sets the auction to
`bought_now` with winner id, winning bid id and winning price, with no
requirement that `effective_ends_at` has passed. -/
theorem buy_now_clamps_and_settles (w : World) (data : AuctionData)
    (bidder : String) (amount now p : ℚ) (hw : w.auction = some data)
    (hact : data.status = AuctionStatus.active)
    (hend : ¬ now > data.effective_ends_at) (hsell : ¬ data.seller_id = bidder)
    (hmin : ¬ amount < minAcceptableBid data)
    (hp : data.config.buy_now_price_per_tonne_eur = some p) (hp0 : p ≠ 0)
    (hge : p ≤ amount) :
    (placeBidData data bidder amount now).amount_per_tonne_eur = p ∧
    (placeBidData data bidder amount now).total_eur
      = round2 (p * data.quantity_tonnes) ∧
    (placeBidData data bidder amount now).status = BidStatus.buy_now ∧
    (placeBidData data bidder amount now).is_buy_now = true ∧
    (placeBidSeq w bidder amount now).1
      = (some (w.nextBid, placeBidData data bidder amount now), none) ∧
    (∃ a', (placeBidSeq w bidder amount now).2.auction = some a' ∧
      a'.status = AuctionStatus.bought_now ∧ a'.winner_id = some bidder ∧
      a'.winning_bid_id = some w.nextBid ∧
      a'.winning_price_per_tonne_eur = some p) := by
  have hbn : buyNowHit data amount = true := by
    unfold buyNowHit
    rw [hp]
    simp [hp0, hge]
  have hcl : clampedAmount data amount = p := by
    unfold clampedAmount
    rw [if_pos hbn, hp]
    rfl
  refine ⟨?_, ?_, ?_, ?_, ?_, ?_⟩
  · unfold placeBidData
    dsimp only
    rw [hcl]
  · unfold placeBidData
    dsimp only
    rw [hcl]
  · unfold placeBidData
    dsimp only
    rw [hbn]
    rfl
  · unfold placeBidData
    dsimp only
    rw [hbn]
  · rw [placeBidSeq_eq w data bidder amount now hw hact hend hsell hmin]
  · rw [placeBidSeq_eq w data bidder amount now hw hact hend hsell hmin]
    obtain ⟨hst, hhb, hhid, hbc, hbuy⟩ := placeBidMut_result
      (clampedAmount data amount) w.nextBid bidder now (buyNowHit data amount)
      data hact
    obtain ⟨hw1, hw2, hw3⟩ := hbuy hbn
    refine ⟨(placeBidMut (clampedAmount data amount) w.nextBid bidder now
      (buyNowHit data amount) data).2, ?_, ?_, hw1, hw2, ?_⟩
    · cases hpv : data.current_high_bid_id with
      | none => simp [markPrevOutbid, hpv]
      | some pid => simp [markPrevOutbid, hpv, hbn]
    · rw [hst, if_pos hbn]
    · rw [← hcl]
      exact hw3

/-- Witness for the amended C5: a bid of 60 against buy-now price 50 (and
`effective_ends_at` far in the future) is clamped to 50, marked `buy_now`,
and the auction becomes `bought_now` immediately. -/
theorem buy_now_clamps_and_settles_witness :
    (placeBidData aBuy ("B") 60 50).amount_per_tonne_eur = 50 ∧
    (placeBidData aBuy ("B") 60 50).total_eur
      = round2 (50 * aBuy.quantity_tonnes) ∧
    (placeBidData aBuy ("B") 60 50).status = BidStatus.buy_now ∧
    (placeBidData aBuy ("B") 60 50).is_buy_now = true ∧
    (placeBidSeq wBuy ("B") 60 50).1
      = (some (wBuy.nextBid, placeBidData aBuy ("B") 60 50), none) ∧
    (∃ a', (placeBidSeq wBuy ("B") 60 50).2.auction = some a' ∧
      a'.status = AuctionStatus.bought_now ∧ a'.winner_id = some ("B") ∧
      a'.winning_bid_id = some wBuy.nextBid ∧
      a'.winning_price_per_tonne_eur = some 50) :=
  buy_now_clamps_and_settles wBuy aBuy ("B") 60 50 50 rfl rfl
    (by norm_num [aBuy, auction0]) (by simp [aBuy, auction0])
    (by norm_num [minAcceptableBid, aBuy, auction0]) rfl (by norm_num)
    (by norm_num)

/-- Claim C9 (confirmed): when `auction_place_bid` passes the initial
validations but the auction CAS update fails — either every write attempt
hits a version conflict, or the re-read already finds the auction no longer
active so the mutator aborts — the call returns `(none, error)` while the
bid document created before the CAS loop persists in the store with its
initial status, and the stored auction (its `bid_count` and high-bid fields
included) is untouched by this call. -/
theorem place_bid_not_atomic (w : World) (data : AuctionData) (bidder : String)
    (amount now : ℚ) (intf : ℕ → Option AuctionData) (wOk : ℕ → Bool)
    (hw : w.auction = some data) (hact : data.status = AuctionStatus.active)
    (hend : ¬ now > data.effective_ends_at) (hsell : ¬ data.seller_id = bidder)
    (hmin : ¬ amount < minAcceptableBid data) :
    ((∀ i, intf i = none) → (∀ i, wOk i = false) →
      auction_place_bid w bidder amount now intf wOk
        = ((none, some Msg.concurrentUpdateConflict),
           { w with
             bids := w.bids ++ [(w.nextBid, placeBidData data bidder amount now)]
             nextBid := w.nextBid + 1 })) ∧
    (∀ a0, intf 0 = some a0 → a0.status ≠ AuctionStatus.active →
      auction_place_bid w bidder amount now intf wOk
        = ((none, some (Msg.auctionNoLongerActive a0.status)),
           { w with
             bids := w.bids ++ [(w.nextBid, placeBidData data bidder amount now)]
             nextBid := w.nextBid + 1 })) := by
  constructor
  · intro hintf hwok
    unfold auction_place_bid
    rw [hw]
    dsimp only
    rw [if_neg (by simp [hact]), if_neg hend, if_neg hsell, if_neg hmin]
    simp only [hintf, hw]
    have hc := casRetryGo_conflict (fun i => some data)
      (placeBidMut (clampedAmount data amount) w.nextBid bidder now
        (buyNowHit data amount)) wOk Msg.auctionNotFound
      (fun i => ⟨data, rfl, placeBidMut_active _ _ _ _ _ _ hact⟩)
      hwok 6 0 10 0 [] (by omega)
    unfold casRetry
    rw [hc]
    rfl
  · intro a0 h0 hne
    unfold auction_place_bid
    rw [hw]
    dsimp only
    rw [if_neg (by simp [hact]), if_neg hend, if_neg hsell, if_neg hmin]
    unfold casRetry
    rw [casRetryGo_step]
    rw [h0]
    have hm : placeBidMut (clampedAmount data amount) w.nextBid bidder now
        (buyNowHit data amount) a0
        = (some (Msg.auctionNoLongerActive a0.status), a0) := by
      unfold placeBidMut
      rw [if_pos hne]
    dsimp only
    rw [hm]
    rfl

/-- Witness for C9: a valid bid of 11 on the fresh active auction, once with
every CAS write conflicting (retries exhausted) and once with a concurrent
settlement having ended the auction before the CAS re-read (mutator abort).
Both leave the bid document behind and the auction untouched. -/
theorem place_bid_not_atomic_witness :
    auction_place_bid wRace ("B") 11 50 (fun _ => none) (fun _ => false)
      = ((none, some Msg.concurrentUpdateConflict),
         { wRace with
           bids := wRace.bids ++ [(wRace.nextBid, placeBidData auction0 ("B") 11 50)]
           nextBid := wRace.nextBid + 1 }) ∧
    auction_place_bid wRace ("B") 11 50 (fun _ => some aEnded) (fun _ => true)
      = ((none, some (Msg.auctionNoLongerActive aEnded.status)),
         { wRace with
           bids := wRace.bids ++ [(wRace.nextBid, placeBidData auction0 ("B") 11 50)]
           nextBid := wRace.nextBid + 1 }) := by
  constructor
  · exact (place_bid_not_atomic wRace auction0 ("B") 11 50 (fun _ => none)
      (fun _ => false) rfl rfl (by norm_num [auction0]) (by simp [auction0])
      (by norm_num [minAcceptableBid, auction0, cfg0])).1 (fun i => rfl) (fun i => rfl)
  · exact (place_bid_not_atomic wRace auction0 ("B") 11 50
      (fun _ => some aEnded) (fun _ => true) rfl rfl (by norm_num [auction0])
      (by simp [auction0]) (by norm_num [minAcceptableBid, auction0, cfg0])).2
      aEnded rfl (by simp [aEnded, auction0])

/-
Settlement (claims C2, C6, C10): frame and lookup lemmas.
-/

theorem listingCasW_frame (w : World) (m : ListingData → Option Msg × ListingData) :
    (listingCasW w m).2.auction = w.auction ∧
    (listingCasW w m).2.bids = w.bids ∧
    (listingCasW w m).2.orders = w.orders ∧
    (listingCasW w m).2.ledger = w.ledger ∧
    (listingCasW w m).2.nextBid = w.nextBid ∧
    (listingCasW w m).2.nextOrder = w.nextOrder := by
  rw [listingCasW_eq]
  cases hw : w.listing with
  | none => exact ⟨rfl, rfl, rfl, rfl, rfl, rfl⟩
  | some l =>
    dsimp only
    rcases hm : m l with ⟨e, l'⟩
    cases e <;> exact ⟨rfl, rfl, rfl, rfl, rfl, rfl⟩

theorem markLostAll_frame (winId : ℕ) (bs : List (ℕ × BidData)) :
    ∀ w : World, (markLostAll winId w bs).auction = w.auction ∧
      (markLostAll winId w bs).listing = w.listing ∧
      (markLostAll winId w bs).orders = w.orders ∧
      (markLostAll winId w bs).ledger = w.ledger ∧
      (markLostAll winId w bs).nextBid = w.nextBid ∧
      (markLostAll winId w bs).nextOrder = w.nextOrder := by
  induction bs with
  | nil => intro w; exact ⟨rfl, rfl, rfl, rfl, rfl, rfl⟩
  | cons p bs ih =>
    intro w
    unfold markLostAll
    split <;> exact ih _

theorem lookupBid_cons (q : ℕ × BidData) (qs : List (ℕ × BidData)) (id : ℕ) :
    lookupBid (q :: qs) id
      = if q.1 = id then some q.2 else lookupBid qs id := by
  unfold lookupBid
  by_cases hq : q.1 = id
  · rw [List.find?_cons_of_pos _ (by simp [hq]), if_pos hq]
    rfl
  · rw [List.find?_cons_of_neg _ (by simp [hq]), if_neg hq]

theorem updateBid_cons (q : ℕ × BidData) (qs : List (ℕ × BidData)) (pid : ℕ)
    (b : BidData) :
    updateBid (q :: qs) pid b
      = (if q.1 = pid then (q.1, b) else q) :: updateBid qs pid b := rfl

theorem updateBid_lookup_ne (bs : List (ℕ × BidData)) (pid id : ℕ) (b : BidData)
    (h : pid ≠ id) : lookupBid (updateBid bs pid b) id = lookupBid bs id := by
  induction bs with
  | nil => rfl
  | cons q qs ih =>
    rw [updateBid_cons, lookupBid_cons, lookupBid_cons]
    by_cases hq : q.1 = pid
    · rw [if_pos hq]
      have hne : q.1 ≠ id := by rw [hq]; exact h
      rw [if_neg hne, if_neg hne]
      exact ih
    · rw [if_neg hq]
      by_cases hqi : q.1 = id
      · rw [if_pos hqi, if_pos hqi]
      · rw [if_neg hqi, if_neg hqi]
        exact ih

theorem updateBid_lookup_self (bs : List (ℕ × BidData)) (pid : ℕ) (b b0 : BidData)
    (h : lookupBid bs pid = some b0) :
    lookupBid (updateBid bs pid b) pid = some b := by
  induction bs with
  | nil => simp [lookupBid] at h
  | cons q qs ih =>
    rw [updateBid_cons]
    by_cases hq : q.1 = pid
    · rw [if_pos hq, lookupBid_cons]
      dsimp only
      rw [if_pos hq]
    · rw [if_neg hq, lookupBid_cons, if_neg hq]
      rw [lookupBid_cons, if_neg hq] at h
      exact ih h

theorem markLostAll_lookup_win (winId : ℕ) (bs : List (ℕ × BidData)) :
    ∀ w : World, lookupBid (markLostAll winId w bs).bids winId
      = lookupBid w.bids winId := by
  induction bs with
  | nil => intro w; rfl
  | cons p bs ih =>
    intro w
    unfold markLostAll
    split
    · rename_i hcond
      rw [ih _]
      exact updateBid_lookup_ne w.bids p.1 winId _ hcond.1
    · exact ih _

theorem settle_not_found (w : World) (now : ℚ) (hw : w.auction = none) :
    auction_settle w now = ((false, some Msg.auctionNotFound), w) := by
  unfold auction_settle
  rw [hw]

theorem settle_not_settleable (w : World) (now : ℚ) (a : AuctionData)
    (hw : w.auction = some a)
    (hs : a.status ∉ [AuctionStatus.active, AuctionStatus.ended, AuctionStatus.bought_now]) :
    auction_settle w now = ((false, some (Msg.notSettleable a.status)), w) := by
  unfold auction_settle
  rw [hw]
  dsimp only
  rw [if_pos hs]

theorem settle_markEnded_eq (w : World) (a : AuctionData) (hw : w.auction = some a) :
    (auctionCasW w markEndedMut).2
      = { w with auction := some { a with status := AuctionStatus.ended } } := by
  rw [auctionCasW_eq, hw]
  rfl

theorem auction_fail_eq (w : World) (a : AuctionData) (hw : w.auction = some a) :
    auction_fail w
      = ((true, none),
         { (listing_release_reservation w a.quantity_tonnes).2 with
             auction := some { a with status := AuctionStatus.failed } }) := by
  unfold auction_fail
  rw [hw]
  dsimp only
  have hfa : (listing_release_reservation w a.quantity_tonnes).2.auction
      = w.auction := (listingCasW_frame w _).1
  rw [auctionCasW_eq, hfa, hw]

theorem auction_fail_shape (w : World) (a : AuctionData) (hw : w.auction = some a) :
    (auction_fail w).1 = (true, none) ∧
    statusOf (auction_fail w).2 = some AuctionStatus.failed ∧
    (auction_fail w).2.orders = w.orders := by
  rw [auction_fail_eq w a hw]
  exact ⟨rfl, rfl, (listingCasW_frame w _).2.2.1⟩

theorem settle_fail_shape (w : World) (now : ℚ) (a : AuctionData)
    (hw : w.auction = some a)
    (hs : a.status ∈ [AuctionStatus.active, AuctionStatus.ended, AuctionStatus.bought_now])
    (hfa : reserveUnmet a = true ∨ a.bid_count = 0 ∨ a.current_high_bid_id = none) :
    (auction_settle w now).1 = (true, none) ∧
    statusOf (auction_settle w now).2 = some AuctionStatus.failed ∧
    (auction_settle w now).2.orders = w.orders := by
  unfold auction_settle
  rw [hw]
  dsimp only
  rw [if_neg (not_not_intro hs)]
  unfold settleResolve
  by_cases ha : a.status = AuctionStatus.active
  · rw [if_pos ha, settle_markEnded_eq w a hw]
    have hfs := auction_fail_shape
      { w with auction := some { a with status := AuctionStatus.ended } }
      { a with status := AuctionStatus.ended } rfl
    rcases hfa with hru | hbd
    · rw [if_pos hru]
      exact ⟨hfs.1, hfs.2.1, hfs.2.2⟩
    · by_cases hru : reserveUnmet a = true
      · rw [if_pos hru]
        exact ⟨hfs.1, hfs.2.1, hfs.2.2⟩
      · rw [if_neg hru, if_pos hbd]
        exact ⟨hfs.1, hfs.2.1, hfs.2.2⟩
  · rw [if_neg ha]
    have hfs := auction_fail_shape w a hw
    rcases hfa with hru | hbd
    · rw [if_pos hru]
      exact ⟨hfs.1, hfs.2.1, hfs.2.2⟩
    · by_cases hru : reserveUnmet a = true
      · rw [if_pos hru]
        exact ⟨hfs.1, hfs.2.1, hfs.2.2⟩
      · rw [if_neg hru, if_pos hbd]
        exact ⟨hfs.1, hfs.2.1, hfs.2.2⟩

theorem listingCasW_auction (w : World) (m : ListingData → Option Msg × ListingData) :
    (listingCasW w m).2.auction = w.auction := (listingCasW_frame w m).1

theorem listingCasW_bids (w : World) (m : ListingData → Option Msg × ListingData) :
    (listingCasW w m).2.bids = w.bids := (listingCasW_frame w m).2.1

theorem listingCasW_orders (w : World) (m : ListingData → Option Msg × ListingData) :
    (listingCasW w m).2.orders = w.orders := (listingCasW_frame w m).2.2.1

theorem listingCasW_ledger (w : World) (m : ListingData → Option Msg × ListingData) :
    (listingCasW w m).2.ledger = w.ledger := (listingCasW_frame w m).2.2.2.1

theorem markLostAll_auction (winId : ℕ) (bs : List (ℕ × BidData)) (w : World) :
    (markLostAll winId w bs).auction = w.auction := (markLostAll_frame winId bs w).1

theorem markLostAll_listing (winId : ℕ) (bs : List (ℕ × BidData)) (w : World) :
    (markLostAll winId w bs).listing = w.listing := (markLostAll_frame winId bs w).2.1

theorem markLostAll_orders (winId : ℕ) (bs : List (ℕ × BidData)) (w : World) :
    (markLostAll winId w bs).orders = w.orders := (markLostAll_frame winId bs w).2.2.1

theorem markLostAll_ledger (winId : ℕ) (bs : List (ℕ × BidData)) (w : World) :
    (markLostAll winId w bs).ledger = w.ledger := (markLostAll_frame winId bs w).2.2.2.1

theorem markLostAll_nextOrder (winId : ℕ) (bs : List (ℕ × BidData)) (w : World) :
    (markLostAll winId w bs).nextOrder = w.nextOrder :=
  (markLostAll_frame winId bs w).2.2.2.2.2

theorem settleResolve_success (w1 : World) (now : ℚ) (a ac : AuctionData)
    (winId : ℕ) (wb0 : BidData) (l : ListingData)
    (ha1 : w1.auction = some ac)
    (hr : reserveUnmet a = false) (hbc : ¬ a.bid_count = 0)
    (hid : a.current_high_bid_id = some winId)
    (hbid : lookupBid w1.bids winId = some wb0)
    (hl : w1.listing = some l) :
    (settleResolve w1 a now).1 = (true, none) ∧
    (settleResolve w1 a now).2.auction
      = some { ac with
          status := AuctionStatus.settled
          winner_id := some wb0.bidder_id
          winning_bid_id := some winId
          winning_price_per_tonne_eur := some wb0.amount_per_tonne_eur
          order_id := some w1.nextOrder
          settled_at := some now } ∧
    (settleResolve w1 a now).2.orders.length = w1.orders.length + 1 ∧
    (settleResolve w1 a now).2.ledger = w1.ledger ++ [w1.nextOrder] ∧
    lookupBid (settleResolve w1 a now).2.bids winId
      = some { wb0 with status := BidStatus.won } ∧
    (settleResolve w1 a now).2.listing
      = some (confirmSaleMut a.quantity_tonnes l).2 := by
  unfold settleResolve
  rw [if_neg (by rw [hr]; exact Bool.false_ne_true)]
  rw [if_neg (fun hcon =>
    hcon.elim hbc (fun h => Option.some_ne_none winId (hid ▸ h)))]
  rw [hid]
  dsimp only
  rw [hbid]
  dsimp only
  rw [(markLostAll_frame _ _ _).2.1]
  dsimp only
  rw [hl]
  dsimp only
  simp only [order_create, order_set_payment_intent, order_update_status,
    order_record_ledger_entries, listing_confirm_sale]
  rw [auctionCasW_eq]
  rw [listingCasW_auction]
  dsimp only
  rw [markLostAll_auction]
  dsimp only
  rw [ha1]
  dsimp only
  simp only [settleMut, markLostAll_nextOrder, markLostAll_listing,
    markLostAll_orders, markLostAll_ledger, markLostAll_auction]
  refine ⟨trivial, trivial, ?_, ?_, ?_, ?_⟩
  · simp [listingCasW_orders, markLostAll_orders, List.length_map,
      List.length_append]
  · rw [listingCasW_ledger]
  · rw [listingCasW_bids]
    dsimp only
    rw [markLostAll_lookup_win]
    dsimp only
    exact updateBid_lookup_self w1.bids winId _ wb0 hbid
  · have hcm : confirmSaleMut a.quantity_tonnes l
        = (none, (confirmSaleMut a.quantity_tonnes l).2) := by
      refine Prod.ext ?_ rfl
      unfold confirmSaleMut
      dsimp only
      split <;> rfl
    rw [listingCasW_eq]
    dsimp only
    rw [hcm]

theorem auction_fail_ok (w : World) (h : (auction_fail w).1.1 = true) :
    statusOf (auction_fail w).2 = some AuctionStatus.failed := by
  cases hw : w.auction with
  | none =>
    unfold auction_fail at h
    rw [hw] at h
    simp at h
  | some a =>
    rw [auction_fail_eq w a hw]
    rfl

theorem statusOf_some (w : World) (s : AuctionStatus) (h : statusOf w = some s) :
    ∃ a, w.auction = some a ∧ a.status = s := by
  unfold statusOf at h
  cases hw : w.auction with
  | none => rw [hw] at h; simp at h
  | some a =>
    rw [hw] at h
    simp only [Option.map_some'] at h
    injection h with h
    exact ⟨a, rfl, h⟩

theorem settleResolve_ok_status (w1 : World) (a : AuctionData) (now : ℚ)
    (h : (settleResolve w1 a now).1.1 = true) :
    statusOf (settleResolve w1 a now).2 = some AuctionStatus.failed ∨
    statusOf (settleResolve w1 a now).2 = some AuctionStatus.settled := by
  unfold settleResolve at h ⊢
  by_cases hru : reserveUnmet a = true
  · rw [if_pos hru] at h ⊢
    exact Or.inl (auction_fail_ok w1 h)
  · rw [if_neg hru] at h ⊢
    by_cases hbd : a.bid_count = 0 ∨ a.current_high_bid_id = none
    · rw [if_pos hbd] at h ⊢
      exact Or.inl (auction_fail_ok w1 h)
    · rw [if_neg hbd] at h ⊢
      split at h
      · rename_i heq
        exact Or.inl (auction_fail_ok w1 h)
      · rename_i winId heq
        split at h
        · simp at h
        · rename_i wb0 heq2
          dsimp only at h ⊢
          split at h
          · simp at h
          · rename_i lval heq3
            rw [auctionCasW_eq] at h ⊢
            simp only [listing_confirm_sale, order_record_ledger_entries,
              order_update_status, order_set_payment_intent, order_create,
              listingCasW_auction, markLostAll_auction] at h ⊢
            cases ha1 : w1.auction with
            | none =>
              rw [ha1] at h
              simp at h
            | some ac =>
              exact Or.inr rfl

theorem settle_ok_terminal (w : World) (now : ℚ)
    (h : (auction_settle w now).1.1 = true) :
    ∃ a', (auction_settle w now).2.auction = some a' ∧
      (a'.status = AuctionStatus.failed ∨ a'.status = AuctionStatus.settled) := by
  unfold auction_settle at h ⊢
  cases hw : w.auction with
  | none => rw [hw] at h; simp at h
  | some a =>
    rw [hw] at h
    dsimp only at h ⊢
    by_cases hs : a.status ∉ [AuctionStatus.active, AuctionStatus.ended, AuctionStatus.bought_now]
    · rw [if_pos hs] at h
      simp at h
    · rw [if_neg hs] at h ⊢
      rcases settleResolve_ok_status _ a now h with hst | hst
      · obtain ⟨a', ha', hsa⟩ := statusOf_some _ _ hst
        exact ⟨a', ha', Or.inl hsa⟩
      · obtain ⟨a', ha', hsa⟩ := statusOf_some _ _ hst
        exact ⟨a', ha', Or.inr hsa⟩

theorem settle_success_shape (w : World) (now : ℚ) (a : AuctionData)
    (winId : ℕ) (wb0 : BidData) (l : ListingData)
    (hw : w.auction = some a)
    (hs : a.status ∈ [AuctionStatus.active, AuctionStatus.ended, AuctionStatus.bought_now])
    (hr : reserveUnmet a = false) (hbc : ¬ a.bid_count = 0)
    (hid : a.current_high_bid_id = some winId)
    (hbid : lookupBid w.bids winId = some wb0)
    (hl : w.listing = some l) :
    (auction_settle w now).1 = (true, none) ∧
    statusOf (auction_settle w now).2 = some AuctionStatus.settled ∧
    (auction_settle w now).2.orders.length = w.orders.length + 1 ∧
    (auction_settle w now).2.ledger = w.ledger ++ [w.nextOrder] ∧
    lookupBid (auction_settle w now).2.bids winId
      = some { wb0 with status := BidStatus.won } ∧
    (auction_settle w now).2.listing
      = some (confirmSaleMut a.quantity_tonnes l).2 := by
  unfold auction_settle
  rw [hw]
  dsimp only
  rw [if_neg (not_not_intro hs)]
  by_cases ha : a.status = AuctionStatus.active
  · rw [if_pos ha, settle_markEnded_eq w a hw]
    have hres := settleResolve_success
      { w with auction := some { a with status := AuctionStatus.ended } } now a
      { a with status := AuctionStatus.ended } winId wb0 l rfl hr hbc hid hbid hl
    exact ⟨hres.1, by unfold statusOf; rw [hres.2.1]; rfl, hres.2.2.1,
      hres.2.2.2.1, hres.2.2.2.2.1, hres.2.2.2.2.2⟩
  · rw [if_neg ha]
    have hres := settleResolve_success w now a a winId wb0 l hw hr hbc hid hbid hl
    exact ⟨hres.1, by unfold statusOf; rw [hres.2.1]; rfl, hres.2.2.1,
      hres.2.2.2.1, hres.2.2.2.2.1, hres.2.2.2.2.2⟩

/-- Claim C2 (confirmed): after a first `auction_settle` call that completed
successfully (it returned ok), the auction is in a terminal state, so a
second call returns an error and leaves the whole store unchanged — same
terminal state, no second order, no second `listing_confirm_sale`. -/
theorem settle_twice_idempotent (w : World) (t1 t2 : ℚ)
    (h : (auction_settle w t1).1.1 = true) :
    (auction_settle (auction_settle w t1).2 t2).1.1 = false ∧
    ((auction_settle (auction_settle w t1).2 t2).1.2).isSome = true ∧
    (auction_settle (auction_settle w t1).2 t2).2 = (auction_settle w t1).2 ∧
    ((auction_settle (auction_settle w t1).2 t2).2).orders
      = ((auction_settle w t1).2).orders ∧
    ((auction_settle (auction_settle w t1).2 t2).2).listing
      = ((auction_settle w t1).2).listing := by
  obtain ⟨a', ha', hterm⟩ := settle_ok_terminal w t1 h
  have hns : a'.status
      ∉ [AuctionStatus.active, AuctionStatus.ended, AuctionStatus.bought_now] := by
    rcases hterm with hx | hx <;> rw [hx] <;> simp
  rw [settle_not_settleable _ t2 a' ha' hns]
  exact ⟨rfl, rfl, rfl, rfl, rfl⟩

/-- Witness for C2, at an ended auction with one bid of 12 that settles
successfully on the first call. -/
theorem settle_twice_idempotent_witness :
    (auction_settle (auction_settle wDone 200).2 300).1.1 = false ∧
    ((auction_settle (auction_settle wDone 200).2 300).1.2).isSome = true ∧
    (auction_settle (auction_settle wDone 200).2 300).2
      = (auction_settle wDone 200).2 ∧
    ((auction_settle (auction_settle wDone 200).2 300).2).orders
      = ((auction_settle wDone 200).2).orders ∧
    ((auction_settle (auction_settle wDone 200).2 300).2).listing
      = ((auction_settle wDone 200).2).listing :=
  settle_twice_idempotent wDone 200 300
    (by rw [(settle_success_shape wDone 200 aDone 0 bidHigh lStock rfl
        (by simp [aDone, aHigh, auction0]) rfl (by simp [aDone, aHigh, auction0])
        rfl rfl rfl).1])

/-
Lifecycle state machine (claim C6) and clock-independence of settlement
(claim C10).
-/

theorem lifecycleReach_refl (s : AuctionStatus) : lifecycleReach s s = true := by
  unfold lifecycleReach
  simp

theorem lifecycleReachX_refl (s : AuctionStatus) : lifecycleReachX s s = true := by
  unfold lifecycleReachX
  rw [lifecycleReach_refl]
  rfl

theorem machineOk_of_unchanged (R : AuctionStatus → AuctionStatus → Bool)
    (hrefl : ∀ s, R s s = true) (w w' : World) (h : w'.auction = w.auction) :
    machineOkBy R w w' := by
  intro s t hs ht
  unfold statusOf at hs ht
  rw [h, hs] at ht
  injection ht with ht
  rw [ht]
  exact hrefl t

theorem statusOf_eq_some (w' : World) (a : AuctionData) (t : AuctionStatus)
    (hw' : w'.auction = some a) (h : statusOf w' = some t) : a.status = t := by
  unfold statusOf at h
  rw [hw'] at h
  simp only [Option.map_some'] at h
  injection h

theorem machineOk_of_status (R : AuctionStatus → AuctionStatus → Bool)
    (w w' : World) (a : AuctionData) (t' : AuctionStatus)
    (hw : w.auction = some a) (hw' : statusOf w' = some t')
    (hR : R a.status t' = true) : machineOkBy R w w' := by
  intro s t hs ht
  have hsa : a.status = s := statusOf_eq_some w a s hw hs
  rw [hw'] at ht
  injection ht with ht
  rw [← hsa, ← ht]
  exact hR

theorem markPrevOutbid_auction (w : World) (p : Option ℕ) (b : Bool) :
    (markPrevOutbid w p b).auction = w.auction := by
  unfold markPrevOutbid
  cases p with
  | none => rfl
  | some pid =>
    dsimp only
    by_cases hb : b = true
    · rw [if_pos hb]
    · rw [if_neg hb]
      cases lookupBid w.bids pid with
      | none => rfl
      | some pb =>
        dsimp only
        split <;> rfl

theorem auction_fail_status (w : World) :
    statusOf (auction_fail w).2 = statusOf w ∨
    statusOf (auction_fail w).2 = some AuctionStatus.failed := by
  cases hw : w.auction with
  | none =>
    refine Or.inl ?_
    unfold auction_fail
    rw [hw]
  | some a =>
    refine Or.inr ?_
    rw [auction_fail_eq w a hw]
    rfl

theorem settleResolve_status (w1 : World) (a : AuctionData) (now : ℚ) :
    statusOf (settleResolve w1 a now).2 = statusOf w1 ∨
    statusOf (settleResolve w1 a now).2 = some AuctionStatus.failed ∨
    statusOf (settleResolve w1 a now).2 = some AuctionStatus.settled := by
  unfold settleResolve
  by_cases hru : reserveUnmet a = true
  · rw [if_pos hru]
    rcases auction_fail_status w1 with h | h
    · exact Or.inl h
    · exact Or.inr (Or.inl h)
  · rw [if_neg hru]
    by_cases hbd : a.bid_count = 0 ∨ a.current_high_bid_id = none
    · rw [if_pos hbd]
      rcases auction_fail_status w1 with h | h
      · exact Or.inl h
      · exact Or.inr (Or.inl h)
    · rw [if_neg hbd]
      split
      · rcases auction_fail_status w1 with h | h
        · exact Or.inl h
        · exact Or.inr (Or.inl h)
      · rename_i winId heq
        split
        · exact Or.inl rfl
        · rename_i wb0 heq2
          dsimp only
          split
          · rename_i heq3
            refine Or.inl ?_
            dsimp only
            unfold statusOf
            rw [markLostAll_auction]
          · rename_i lval heq3
            rw [auctionCasW_eq]
            simp only [listing_confirm_sale, order_record_ledger_entries,
              order_update_status, order_set_payment_intent, order_create,
              listingCasW_auction, markLostAll_auction]
            cases ha1 : w1.auction with
            | none =>
              refine Or.inl ?_
              simp [statusOf, listing_confirm_sale, order_record_ledger_entries,
                order_update_status, order_set_payment_intent, order_create,
                listingCasW_auction, markLostAll_auction, ha1]
            | some ac => exact Or.inr (Or.inr rfl)

theorem machineOk_activate (w : World) :
    machineOkBy lifecycleReach w (auction_activate w).2 := by
  cases hw : w.auction with
  | none =>
    refine machineOk_of_unchanged _ lifecycleReach_refl w _ ?_
    unfold auction_activate
    rw [auctionCasW_eq, hw]
    exact hw
  | some a =>
    by_cases hsch : a.status = AuctionStatus.scheduled
    · refine machineOk_of_status _ w _ a AuctionStatus.active hw ?_ ?_
      · unfold auction_activate
        rw [auctionCasW_eq, hw]
        dsimp only
        unfold activateMut
        rw [if_neg (not_not_intro hsch)]
        rfl
      · rw [hsch]
        decide
    · refine machineOk_of_unchanged _ lifecycleReach_refl w _ ?_
      unfold auction_activate
      rw [auctionCasW_eq, hw]
      dsimp only
      unfold activateMut
      rw [if_pos hsch]
      exact hw

theorem machineOk_cancel (w : World) :
    machineOkBy lifecycleReach w (auction_cancel w).2 := by
  cases hw : w.auction with
  | none =>
    refine machineOk_of_unchanged _ lifecycleReach_refl w _ ?_
    unfold auction_cancel
    rw [hw]
    exact hw
  | some a =>
    by_cases hbc : a.bid_count > 0
    · refine machineOk_of_unchanged _ lifecycleReach_refl w _ ?_
      unfold auction_cancel
      rw [hw]
      dsimp only
      rw [if_pos hbc]
      exact hw
    · by_cases hst : a.status ∉ [AuctionStatus.scheduled, AuctionStatus.active]
      · refine machineOk_of_unchanged _ lifecycleReach_refl w _ ?_
        unfold auction_cancel
        rw [hw]
        dsimp only
        rw [if_neg hbc, if_pos hst]
        exact hw
      · refine machineOk_of_status _ w _ a AuctionStatus.cancelled hw ?_ ?_
        · unfold auction_cancel
          rw [hw]
          dsimp only
          rw [if_neg hbc, if_neg hst]
          have hfa : (listing_release_reservation w a.quantity_tonnes).2.auction
              = w.auction := (listingCasW_frame w _).1
          rw [auctionCasW_eq, hfa, hw]
          rfl
        · have hmem : a.status ∈ [AuctionStatus.scheduled, AuctionStatus.active] :=
            not_not.mp hst
          simp at hmem
          rcases hmem with h1 | h1 <;> rw [h1] <;> decide

theorem machineOk_placeBid (w : World) (bidder : String) (amount now : ℚ) :
    machineOkBy lifecycleReach w (placeBidSeq w bidder amount now).2 := by
  cases hw : w.auction with
  | none =>
    refine machineOk_of_unchanged _ lifecycleReach_refl w _ ?_
    unfold placeBidSeq
    rw [(place_bid_rejections w bidder amount now (fun _ => none) (fun _ => true)).1 hw]
  | some data =>
    have hrj := (place_bid_rejections w bidder amount now
      (fun _ => none) (fun _ => true)).2 data hw
    by_cases hact : data.status = AuctionStatus.active
    · by_cases hend : now > data.effective_ends_at
      · refine machineOk_of_unchanged _ lifecycleReach_refl w _ ?_
        unfold placeBidSeq
        rw [hrj.2.1 hact hend]
      · by_cases hsell : data.seller_id = bidder
        · refine machineOk_of_unchanged _ lifecycleReach_refl w _ ?_
          unfold placeBidSeq
          rw [hrj.2.2.1 hact hend hsell]
        · by_cases hmin : amount < minAcceptableBid data
          · refine machineOk_of_unchanged _ lifecycleReach_refl w _ ?_
            unfold placeBidSeq
            rw [hrj.2.2.2 hact hend hsell hmin]
          · rw [placeBidSeq_eq w data bidder amount now hw hact hend hsell hmin]
            refine machineOk_of_status _ w _ data
              (if buyNowHit data amount then AuctionStatus.bought_now
               else AuctionStatus.active) hw ?_ ?_
            · dsimp only
              unfold statusOf
              rw [markPrevOutbid_auction]
              dsimp only
              simp only [Option.map_some']
              rw [(placeBidMut_result (clampedAmount data amount) w.nextBid bidder
                now (buyNowHit data amount) data hact).1]
            · rw [hact]
              cases buyNowHit data amount <;> decide
    · refine machineOk_of_unchanged _ lifecycleReach_refl w _ ?_
      unfold placeBidSeq
      rw [hrj.1 hact]

theorem machineOk_settle (w : World) (now : ℚ) :
    machineOkBy lifecycleReachX w (auction_settle w now).2 := by
  cases hw : w.auction with
  | none =>
    refine machineOk_of_unchanged _ lifecycleReachX_refl w _ ?_
    rw [settle_not_found w now hw]
  | some a =>
    by_cases hs : a.status
        ∉ [AuctionStatus.active, AuctionStatus.ended, AuctionStatus.bought_now]
    · refine machineOk_of_unchanged _ lifecycleReachX_refl w _ ?_
      rw [settle_not_settleable w now a hw hs]
    · intro s t hst htt
      have hsa : a.status = s := statusOf_eq_some w a s hw hst
      unfold auction_settle at htt
      rw [hw] at htt
      dsimp only at htt
      rw [if_neg hs] at htt
      by_cases ha : a.status = AuctionStatus.active
      · rw [if_pos ha, settle_markEnded_eq w a hw] at htt
        rcases settleResolve_status
            { w with auction := some { a with status := AuctionStatus.ended } } a now
          with hc | hc | hc <;> rw [hc] at htt
        · have ht3 : AuctionStatus.ended = t :=
            statusOf_eq_some _ { a with status := AuctionStatus.ended } t rfl htt
          rw [← ht3, ← hsa, ha]
          decide
        · injection htt with ht3
          rw [← ht3, ← hsa, ha]
          decide
        · injection htt with ht3
          rw [← ht3, ← hsa, ha]
          decide
      · rw [if_neg ha] at htt
        have hmem : a.status
            ∈ [AuctionStatus.active, AuctionStatus.ended, AuctionStatus.bought_now] :=
          not_not.mp hs
        simp at hmem
        rcases hmem with h1 | h1 | h1
        · exact absurd h1 ha
        · rcases settleResolve_status w a now with hc | hc | hc <;> rw [hc] at htt
          · have ht3 : a.status = t := statusOf_eq_some w a t hw htt
            rw [← ht3, ← hsa]
            exact lifecycleReachX_refl _
          · injection htt with ht3
            rw [← ht3, ← hsa, h1]
            decide
          · injection htt with ht3
            rw [← ht3, ← hsa, h1]
            decide
        · rcases settleResolve_status w a now with hc | hc | hc <;> rw [hc] at htt
          · have ht3 : a.status = t := statusOf_eq_some w a t hw htt
            rw [← ht3, ← hsa]
            exact lifecycleReachX_refl _
          · injection htt with ht3
            rw [← ht3, ← hsa, h1]
            decide
          · injection htt with ht3
            rw [← ht3, ← hsa, h1]
            decide

/-- Counterexample for C6: `auction_fail` has no status guard, so it moves an
auction out of the terminal state `settled` into `failed` — the claimed
machine has no edge out of `settled`, and the claim asserted no operation
leaves a terminal state. -/
theorem fail_from_settled_cex :
    statusOf wTerm = some AuctionStatus.settled ∧
    lifecycleReach AuctionStatus.settled AuctionStatus.failed = false ∧
    (auction_fail wTerm).1 = (true, none) ∧
    statusOf (auction_fail wTerm).2 = some AuctionStatus.failed := by
  refine ⟨rfl, by decide, ?_, ?_⟩
  · rw [auction_fail_eq wTerm aSettled rfl]
  · rw [auction_fail_eq wTerm aSettled rfl]
    rfl

/-- Claim C6 (corrected): `auction_activate`, `auction_cancel` and
`auction_place_bid` follow the spec's lifecycle machine; `auction_settle`
follows it extended with the extra edge `bought_now → failed` (a bought-now
auction whose reserve is unmet fails at settlement); but `auction_fail`
checks no status at all and moves any stored auction — terminal states
included — to `failed`. -/
theorem lifecycle_machine_respected (w : World) (bidder : String)
    (amount now t1 : ℚ) :
    machineOkBy lifecycleReach w (auction_activate w).2 ∧
    machineOkBy lifecycleReach w (auction_cancel w).2 ∧
    machineOkBy lifecycleReach w (placeBidSeq w bidder amount now).2 ∧
    machineOkBy lifecycleReachX w (auction_settle w t1).2 ∧
    (∀ a, w.auction = some a →
      statusOf (auction_fail w).2 = some AuctionStatus.failed) :=
  ⟨machineOk_activate w, machineOk_cancel w,
   machineOk_placeBid w bidder amount now, machineOk_settle w t1,
   fun a ha => by rw [auction_fail_eq w a ha]; rfl⟩

/-- Witness for C6 at the fresh active-auction world. -/
theorem lifecycle_machine_respected_witness :
    machineOkBy lifecycleReach wLife (auction_activate wLife).2 ∧
    machineOkBy lifecycleReach wLife (auction_cancel wLife).2 ∧
    machineOkBy lifecycleReach wLife (placeBidSeq wLife ("B") 11 1).2 ∧
    machineOkBy lifecycleReachX wLife (auction_settle wLife 5).2 ∧
    (∀ a, wLife.auction = some a →
      statusOf (auction_fail wLife).2 = some AuctionStatus.failed) :=
  lifecycle_machine_respected wLife ("B") 11 1 5

/-- Counterexample for C10: an active auction with zero bids passes the
settleable check, the call reports success, yet it does not proceed to full
settlement — no order is created and the auction is marked failed, not
settled. -/
theorem settle_active_no_bids_cex :
    statusOf wNoBids = some AuctionStatus.active ∧
    (auction_settle wNoBids 5).1 = (true, none) ∧
    (auction_settle wNoBids 5).2.orders = [] ∧
    statusOf (auction_settle wNoBids 5).2 = some AuctionStatus.failed := by
  have h := settle_fail_shape wNoBids 5 auction0 rfl (by decide)
    (Or.inr (Or.inl rfl))
  exact ⟨rfl, h.1, h.2.2, h.2.1⟩

/-- Claim C10 (corrected): `auction_settle` never consults the clock — the
time argument is unconstrained throughout. It errors when the auction is
absent or its status is not settleable; an active auction with its reserve
met, a live winning bid and a stored listing is fully settled (order
created, winning bid marked won, sale confirmed on the listing) at any
current time; but an active auction whose reserve is unmet or that has no
bids is instead marked failed with no order, so success does not always mean
full settlement. -/
theorem settle_clock_free (w : World) (now : ℚ) (a : AuctionData)
    (winId : ℕ) (wb0 : BidData) (l : ListingData) :
    (w.auction = none →
      auction_settle w now = ((false, some Msg.auctionNotFound), w)) ∧
    (w.auction = some a →
      a.status ∉ [AuctionStatus.active, AuctionStatus.ended, AuctionStatus.bought_now] →
      auction_settle w now = ((false, some (Msg.notSettleable a.status)), w)) ∧
    (w.auction = some a → a.status = AuctionStatus.active →
      reserveUnmet a = false → ¬ a.bid_count = 0 →
      a.current_high_bid_id = some winId →
      lookupBid w.bids winId = some wb0 → w.listing = some l →
      (auction_settle w now).1 = (true, none) ∧
      statusOf (auction_settle w now).2 = some AuctionStatus.settled ∧
      (auction_settle w now).2.orders.length = w.orders.length + 1 ∧
      lookupBid (auction_settle w now).2.bids winId
        = some { wb0 with status := BidStatus.won } ∧
      (auction_settle w now).2.listing
        = some (confirmSaleMut a.quantity_tonnes l).2) ∧
    (w.auction = some a → a.status = AuctionStatus.active →
      (reserveUnmet a = true ∨ a.bid_count = 0 ∨ a.current_high_bid_id = none) →
      (auction_settle w now).1 = (true, none) ∧
      statusOf (auction_settle w now).2 = some AuctionStatus.failed ∧
      (auction_settle w now).2.orders = w.orders) := by
  refine ⟨?_, ?_, ?_, ?_⟩
  · intro hw
    exact settle_not_found w now hw
  · intro hw hs
    exact settle_not_settleable w now a hw hs
  · intro hw hact hr hbc hid hbid hl
    have h := settle_success_shape w now a winId wb0 l hw
      (by rw [hact]; simp) hr hbc hid hbid hl
    exact ⟨h.1, h.2.1, h.2.2.1, h.2.2.2.2.1, h.2.2.2.2.2⟩
  · intro hw hact hfa
    have h := settle_fail_shape w now a hw (by rw [hact]; simp) hfa
    exact ⟨h.1, h.2.1, h.2.2⟩

/-- Witness for C10: the world with an active auction holding a high bid of
12, settled at time 5, which is strictly before the auction's
`effective_ends_at` of 100 — settlement still completes in full. -/
theorem settle_clock_free_witness :
    (5 : ℚ) < aHigh.effective_ends_at ∧
    ((wEarly.auction = none →
      auction_settle wEarly 5 = ((false, some Msg.auctionNotFound), wEarly)) ∧
    (wEarly.auction = some aHigh →
      aHigh.status ∉ [AuctionStatus.active, AuctionStatus.ended, AuctionStatus.bought_now] →
      auction_settle wEarly 5 = ((false, some (Msg.notSettleable aHigh.status)), wEarly)) ∧
    (wEarly.auction = some aHigh → aHigh.status = AuctionStatus.active →
      reserveUnmet aHigh = false → ¬ aHigh.bid_count = 0 →
      aHigh.current_high_bid_id = some 0 →
      lookupBid wEarly.bids 0 = some bidHigh → wEarly.listing = some lStock →
      (auction_settle wEarly 5).1 = (true, none) ∧
      statusOf (auction_settle wEarly 5).2 = some AuctionStatus.settled ∧
      (auction_settle wEarly 5).2.orders.length = wEarly.orders.length + 1 ∧
      lookupBid (auction_settle wEarly 5).2.bids 0
        = some { bidHigh with status := BidStatus.won } ∧
      (auction_settle wEarly 5).2.listing
        = some (confirmSaleMut aHigh.quantity_tonnes lStock).2) ∧
    (wEarly.auction = some aHigh → aHigh.status = AuctionStatus.active →
      (reserveUnmet aHigh = true ∨ aHigh.bid_count = 0 ∨
        aHigh.current_high_bid_id = none) →
      (auction_settle wEarly 5).1 = (true, none) ∧
      statusOf (auction_settle wEarly 5).2 = some AuctionStatus.failed ∧
      (auction_settle wEarly 5).2.orders = wEarly.orders)) :=
  ⟨by norm_num [aHigh, auction0],
   settle_clock_free wEarly 5 aHigh 0 bidHigh lStock⟩
